import Mathlib

/-!
# gifwrap: the GIF codec adapter (`src/gifcodec.js`)

A shallow embedding of the encoder and decoder glue of `gifcodec.js`.

Conventions of the embedding.

* JavaScript numbers that the code computes are non-negative integers far
  below `2^53` (byte counts, colour counts, indices), where double arithmetic,
  division by 8 or 255 followed by `Math.ceil` included, is exact; they are
  modelled by `Nat`.  The one other value that the arithmetic of this file
  produces is `NaN`, so an estimate is a `JSNum`.
* A call either returns a value or stops: it throws, or it never returns.
  Both are a `Failure`, and a function that can stop returns
  `Except Failure _`.
* Objects that the code mutates (`palette.colors`, the index buffer) are
  passed and returned explicitly.
* The GIF bitstream writer and reader (`omggif`), the `Gif` and `GifFrame`
  classes and the ordered set (`bintrees`) live outside `gifcodec.js`; what the
  code needs from them is a field of the input or a parameter.
-/

namespace Gifwrap

/-! ## Values -/

/-- Ways in which a call does not return a value: the JavaScript exceptions
that `gifcodec.js` can raise, an exception of the external writer, and
non-termination. -/
inductive Failure where
  | referenceError (msg : String)
  | typeError (msg : String)
  | gifError (msg : String)
  | writerError (msg : String)
  | diverges
  deriving DecidableEq, Repr

/-- A JavaScript number as the size estimators produce it: a natural number
or `NaN`. -/
inductive JSNum where
  | num (n : Nat)
  | nan
  deriving DecidableEq, Repr

namespace JSNum

/-- JavaScript `+` on numbers: `NaN` is absorbing. -/
def add : JSNum → JSNum → JSNum
  | num a, num b => num (a + b)
  | _, _ => nan

/-- JavaScript `*` on numbers: `NaN` is absorbing. -/
def mul : JSNum → JSNum → JSNum
  | num a, num b => num (a * b)
  | _, _ => nan

/-- JavaScript `<=` on numbers: false as soon as one side is `NaN`. -/
def le : JSNum → JSNum → Bool
  | num a, num b => decide (a ≤ b)
  | _, _ => false

/-- JavaScript `>` on numbers: false as soon as one side is `NaN`. -/
def gt : JSNum → JSNum → Bool
  | num a, num b => decide (b < a)
  | _, _ => false

end JSNum

/-- The bitmap of a frame: `data` holds four bytes (R, G, B, A) per pixel. -/
structure Bitmap where
  width : Nat
  height : Nat
  data : List Nat
  deriving DecidableEq, Repr

/-- A colour table as `_encodeGif` handles it: the colour list, the
transparency flag and the `indexSize` property that `_encodeGif` assigns. -/
structure Palette where
  colors : List Nat
  usesTransparency : Bool
  indexSize : Nat
  deriving DecidableEq, Repr

/-- A frame.  `makePalette` is the palette object that the frame's
`makePalette()` method (class `GifFrame`, outside `gifcodec.js`) returns. -/
structure GifFrame where
  bitmap : Bitmap
  xOffset : Nat
  yOffset : Nat
  isInterlaced : Bool
  delayHundreths : Nat
  disposalMethod : Nat
  makePalette : Palette
  deriving DecidableEq, Repr

/-- The second argument of `_getFrameSizeEst`: the callers pass either a
palette object or the number `0`. -/
inductive PaletteArg where
  | palette (p : Palette)
  | number (n : Nat)
  deriving DecidableEq, Repr

/-- The value of `3*palette.indexSize`'s operand `palette.indexSize`: a
number has no such property, the read gives `undefined`, and `undefined` in
arithmetic is `NaN`. -/
def PaletteArg.indexSize : PaletteArg → JSNum
  | .palette p => .num p.indexSize
  | .number _ => .nan

/-! ## Size estimation -/

/-- Estimated bytes per GIF excluding palette and data. -/
def PER_GIF_OVERHEAD : Nat := 34

/-- Estimated bytes per frame excluding palette and data. -/
def PER_FRAME_OVERHEAD : Nat := 22

/-- The value of `Math.ceil(a / b)` for natural `a` and positive `b`. -/
def mathCeilDiv (a b : Nat) : Nat := (a + b - 1) / b

/-- JavaScript `ToInt32` on an integer. -/
def toInt32 (x : Int) : Int := (x + 2 ^ 31) % 2 ^ 32 - 2 ^ 31

/-- The `while (indexSize)` loop of `_getPixelBitWidth`:
`++pixelBitWidth; indexSize >>= 1` as long as `indexSize` is not zero.
`none` when the loop has not ended after `fuel` iterations. -/
def pixelBitWidthLoop : Nat → Int → Nat → Option Nat
  | 0, _, _ => none
  | fuel + 1, indexSize, pixelBitWidth =>
    if indexSize = 0 then some pixelBitWidth
    else pixelBitWidthLoop fuel (toInt32 indexSize / 2) (pixelBitWidth + 1)

/-- Source `_getPixelBitWidth`.  After one shift the loop variable is a
32-bit integer; a non-negative one reaches zero within 32 more shifts and a
negative one never does, so 64 iterations of fuel decide termination. -/
def _getPixelBitWidth (palette : Palette) : Except Failure Nat :=
  match pixelBitWidthLoop 64 ((palette.indexSize : Int) - 1) 0 with
  | none => .error .diverges
  | some pixelBitWidth => .ok (if pixelBitWidth > 0 then pixelBitWidth else 1)

/-- Source `_getFrameSizeEst`. -/
def _getFrameSizeEst (frame : GifFrame) (palette : PaletteArg) (pixelBitWidth : Nat) :
    JSNum :=
  let byteLength := frame.bitmap.width * frame.bitmap.height
  let byteLength := mathCeilDiv (byteLength * pixelBitWidth) 8
  let byteLength := byteLength + mathCeilDiv byteLength 255
  (JSNum.num (PER_FRAME_OVERHEAD + byteLength)).add ((JSNum.num 3).mul palette.indexSize)

/-- Source `_getSizeEstimateGlobal`: every frame term is computed with the
number `0` in the place of the palette. -/
def _getSizeEstimateGlobal (globalPalette : Palette) (frames : List GifFrame) :
    Except Failure JSNum := do
  let sizeEst := JSNum.num (PER_GIF_OVERHEAD + globalPalette.indexSize * 3)
  let pixelBitWidth ← _getPixelBitWidth globalPalette
  pure (frames.foldl
    (fun sizeEst frame => sizeEst.add (_getFrameSizeEst frame (.number 0) pixelBitWidth))
    sizeEst)

/-- The `for` loop of `_getSizeEstimateLocal` from index `i` on, over the
frames that are left.  `palettes[i]` out of range is `undefined`, and reading
its `indexSize` throws. -/
def sizeEstimateLocalLoop (palettes : List Palette) :
    List GifFrame → Nat → JSNum → Except Failure JSNum
  | [], _, sizeEst => .ok sizeEst
  | frame :: rest, i, sizeEst =>
    match palettes[i]? with
    | none => .error (.typeError "Cannot read property 'indexSize' of undefined")
    | some palette =>
      match _getPixelBitWidth palette with
      | .error e => .error e
      | .ok pixelBitWidth =>
        sizeEstimateLocalLoop palettes rest (i + 1)
          (sizeEst.add (_getFrameSizeEst frame (.palette palette) pixelBitWidth))

/-- Source `_getSizeEstimateLocal`. -/
def _getSizeEstimateLocal (palettes : List Palette) (frames : List GifFrame) :
    Except Failure JSNum :=
  sizeEstimateLocalLoop palettes frames 0 (.num PER_GIF_OVERHEAD)

/-! ## Colour lookup and the indexed image -/

/-- The `for` loop of `_colorLookupLinear` over the colours from index `i`
on. -/
def colorLookupLinearLoop (color : Nat) : List Nat → Nat → Option Nat
  | [], _ => none
  | c :: rest, i => if c = color then some i else colorLookupLinearLoop color rest (i + 1)

/-- Source `_colorLookupLinear`; `none` is `null`. -/
def _colorLookupLinear (colors : List Nat) (color : Nat) : Option Nat :=
  colorLookupLinearLoop color colors 0

/-- The `while (lo <= hi)` loop of `_colorLookupBinary`.  Every iteration
shrinks the interval `lo..hi` by at least one element, so with a fuel of at
least `hi + 1 - lo` the fuel is used up only when `lo > hi`, where the source
leaves the loop and returns `null`.  An element `colors[mid]` that is
`undefined` compares false both ways and `mid` is returned. -/
def colorLookupBinaryLoop (colors : List Nat) (color : Nat) : Nat → Int → Int → Option Int
  | 0, _, _ => none
  | fuel + 1, lo, hi =>
    if lo ≤ hi then
      let mid := (lo + hi) / 2
      match (if 0 ≤ mid then colors[mid.toNat]? else none) with
      | none => some mid
      | some c =>
        if c > color then colorLookupBinaryLoop colors color fuel lo (mid - 1)
        else if c < color then colorLookupBinaryLoop colors color fuel (mid + 1) hi
        else some mid
    else none

/-- Source `_colorLookupBinary`; `none` is `null`. -/
def _colorLookupBinary (colors : List Nat) (color : Nat) : Option Nat :=
  (colorLookupBinaryLoop colors color colors.length 0 ((colors.length : Int) - 1)).map
    Int.toNat

/-- The element `buffer[k]` of a `Buffer` as `_getIndexedImage` reads the
colour bytes.  It reads them at `i`, `i + 1` and `i + 2` only after it has
found `buffer[i + 3]`, so the index is in range; past the end the value here
is `0`. -/
def bufferGet (buffer : List Nat) (k : Nat) : Nat := buffer.getD k 0

/-- The assignment `buffer[k] = v` on a `Buffer`: the value is stored as a
byte, and an index past the end is ignored. -/
def bufferSet (buffer : List Nat) (k : Nat) (v : Nat) : List Nat := buffer.set k (v % 256)

/-- The value that `new Buffer(n)` returns: `n` bytes, zero-filled (as
Node.js has done since version 8). -/
def newBuffer (n : Nat) : List Nat := List.replicate n 0

/-- The `while (i < colorBuffer.length)` loop of `_getIndexedImage`.  The
opaque branch writes `indexBuffer[j]`, the other branch writes
`indexBuffer[i]`; a lookup that returns `null` is stored as `0`.  The loop
runs `ceil(length / 4)` times, so a fuel of `length` is never used up while
`i < length`. -/
def indexedImageLoop (colorToIndexFunc : List Nat → Nat → Option Nat) (colors : List Nat)
    (colorBuffer : List Nat) (transparentIndex : Nat) :
    Nat → Nat → Nat → List Nat → List Nat
  | 0, _, _, indexBuffer => indexBuffer
  | fuel + 1, i, j, indexBuffer =>
    if i < colorBuffer.length then
      let indexBuffer :=
        if colorBuffer[i + 3]? = some 255 then
          let color := bufferGet colorBuffer i * 2 ^ 16 + bufferGet colorBuffer (i + 1) * 2 ^ 8 +
            bufferGet colorBuffer (i + 2)
          bufferSet indexBuffer j ((colorToIndexFunc colors color).getD 0)
        else
          bufferSet indexBuffer i transparentIndex
      indexedImageLoop colorToIndexFunc colors colorBuffer transparentIndex fuel (i + 4) (j + 1)
        indexBuffer
    else indexBuffer

/-- The object that `_getIndexedImage` returns; `transparentIndex = none` is
`null`. -/
structure IndexedImage where
  buffer : List Nat
  transparentIndex : Option Nat
  deriving DecidableEq, Repr

/-- Source `_getIndexedImage`.  `transparentIndex` is declared `const`, so
the statement `transparentIndex = null` of the branch for a palette without
transparency throws a `TypeError`. -/
def _getIndexedImage (frameIndex : Nat) (frame : GifFrame) (palette : Palette) :
    Except Failure IndexedImage :=
  let colors := palette.colors
  let colorToIndexFunc := if colors.length ≤ 5 then _colorLookupLinear else _colorLookupBinary
  let colorBuffer := frame.bitmap.data
  let indexBuffer := newBuffer (colorBuffer.length / 4)
  let transparentIndex := colors.length
  let indexBuffer := indexedImageLoop colorToIndexFunc colors colorBuffer transparentIndex
    colorBuffer.length 0 0 indexBuffer
  if palette.usesTransparency then
    if transparentIndex = 256 then
      .error (.gifError
        s!"Frame {frameIndex} already has 256 colorsand so can't use transparency")
    else .ok { buffer := indexBuffer, transparentIndex := some transparentIndex }
  else .error (.typeError "Assignment to constant variable.")

/-! ## Writing frames -/

/-- The `while (colorCount > powerOf2)` loop of `_extendPaletteToPowerOf2`
with its 32-bit `powerOf2 <<= 1`; `none` when the loop has not ended after
`fuel` iterations. -/
def powerOf2Loop (colorCount : Nat) : Nat → Int → Option Int
  | 0, _ => none
  | fuel + 1, powerOf2 =>
    if (colorCount : Int) > powerOf2 then powerOf2Loop colorCount fuel (toInt32 (powerOf2 * 2))
    else some powerOf2

/-- Source `_extendPaletteToPowerOf2`: the palette after the call.  The
shift leaves the powers of two at `2^31` and is `0` from the second shift
after that on, so 64 iterations of fuel decide termination. -/
def _extendPaletteToPowerOf2 (palette : Palette) : Except Failure Palette :=
  let colors := if palette.usesTransparency then palette.colors ++ [0] else palette.colors
  let colorCount := colors.length
  match powerOf2Loop colorCount 64 2 with
  | none => .error .diverges
  | some powerOf2 =>
    .ok { palette with
      colors := (colors.take powerOf2.toNat) ++
        List.replicate (powerOf2.toNat - colorCount) 0 }

/-- The options object given to the `GifWriter` constructor. -/
structure WriterOptions where
  palette : Option (List Nat)
  loop : Option Nat
  deriving DecidableEq, Repr

/-- The arguments of one `gifWriter.addFrame` call. -/
structure AddFrameCall where
  x : Nat
  y : Nat
  width : Nat
  height : Nat
  indexedPixels : List Nat
  delay : Nat
  disposal : Nat
  transparent : Option Nat
  palette : Option (List Nat)
  deriving DecidableEq, Repr

/-- The caller's spec as `_encodeGif` reads it. -/
inductive Optimization where
  | speed
  | both
  | size
  deriving DecidableEq, Repr

/-- The spec object; `usesTransparency = none` is `undefined` or `null`. -/
structure GifSpec where
  width : Nat
  height : Nat
  loops : Nat
  optimization : Optimization
  usesTransparency : Option Bool
  deriving DecidableEq, Repr

/-- The object `new Gif(buffer, frames, spec)`. -/
structure Gif where
  buffer : List Nat
  frames : List GifFrame
  spec : GifSpec
  deriving DecidableEq, Repr

/-- What `gifcodec.js` takes from its surroundings, with `W` the state of a
`GifWriter`:
* `frame`: the binding of the global identifier `frame`, which line 195
  reads and no declaration of the file provides (`none`: not defined);
* `newWriter bufferSize width height options`: `new Buffer(bufferSize)`
  followed by `new Omggif.GifWriter(buffer, width, height, options)`;
* `addFrame`: `gifWriter.addFrame(...)`;
* `written`: `buffer.slice(0, gifWriter.end())`;
* `gifLength`: the `length` property of a `Gif` object (`nan` when the
  property is `undefined`). -/
structure Host (W : Type) where
  frame : Option (List GifFrame)
  newWriter : JSNum → Nat → Nat → WriterOptions → Except Failure W
  addFrame : W → AddFrameCall → Except Failure W
  written : W → List Nat
  gifLength : Gif → JSNum

/-- Source `_writeFrame`: the writer and the palette after the call. -/
def _writeFrame {W : Type} (host : Host W) (gifWriter : W) (frameIndex : Nat)
    (frame : GifFrame) (palette : Palette) (isLocalPalette : Bool) :
    Except Failure (W × Palette) := do
  if frame.isInterlaced then
    throw (.gifError "writing interlaced GIFs is not supported")
  let frameInfo ← _getIndexedImage frameIndex frame palette
  let palette ← _extendPaletteToPowerOf2 palette
  let gifWriter ← host.addFrame gifWriter
    { x := frame.xOffset, y := frame.yOffset, width := frame.bitmap.width,
      height := frame.bitmap.height, indexedPixels := frameInfo.buffer,
      delay := frame.delayHundreths, disposal := frame.disposalMethod,
      transparent := frameInfo.transparentIndex,
      palette := if isLocalPalette then some palette.colors else none }
  pure (gifWriter, palette)

/-- The `for` loop of `_encodeGlobal` from index `i` on: every frame is
written against the one palette object, as the frames before it left it. -/
def encodeGlobalLoop {W : Type} (host : Host W) :
    List GifFrame → Nat → W → Palette → Except Failure W
  | [], _, gifWriter, _ => .ok gifWriter
  | frame :: rest, i, gifWriter, globalPalette => do
    let (gifWriter, globalPalette) ← _writeFrame host gifWriter i frame globalPalette false
    encodeGlobalLoop host rest (i + 1) gifWriter globalPalette

/-- Source `_encodeGlobal`. -/
def _encodeGlobal {W : Type} (host : Host W) (frames : List GifFrame) (spec : GifSpec)
    (bufferSizeEst : JSNum) (globalPalette : Palette) (loopCount : Option Nat) :
    Except Failure Gif := do
  let gifWriter ← host.newWriter bufferSizeEst spec.width spec.height
    { palette := some globalPalette.colors, loop := loopCount }
  let gifWriter ← encodeGlobalLoop host frames 0 gifWriter globalPalette
  pure { buffer := host.written gifWriter, frames := frames, spec := spec }

/-- The `for` loop of `_encodeLocal` from index `i` on.  `localPalettes[i]`
out of range is `undefined`, and `_getIndexedImage` throws on reading its
`colors`; `_writeFrame` tests `frame.isInterlaced` before that read, so the
test comes first here too. -/
def encodeLocalLoop {W : Type} (host : Host W) (localPalettes : List Palette) :
    List GifFrame → Nat → W → Except Failure W
  | [], _, gifWriter => .ok gifWriter
  | frame :: rest, i, gifWriter => do
    if frame.isInterlaced then
      throw (.gifError "writing interlaced GIFs is not supported")
    match localPalettes[i]? with
    | none => throw (.typeError "Cannot read property 'colors' of undefined")
    | some palette =>
      let (gifWriter, _) ← _writeFrame host gifWriter i frame palette true
      encodeLocalLoop host localPalettes rest (i + 1) gifWriter

/-- Source `_encodeLocal`. -/
def _encodeLocal {W : Type} (host : Host W) (frames : List GifFrame) (spec : GifSpec)
    (bufferSizeEst : JSNum) (localPalettes : List Palette) (loopCount : Option Nat) :
    Except Failure Gif := do
  let gifWriter ← host.newWriter bufferSizeEst spec.width spec.height
    { palette := none, loop := loopCount }
  let gifWriter ← encodeLocalLoop host localPalettes frames 0 gifWriter
  pure { buffer := host.written gifWriter, frames := frames, spec := spec }

/-! ## Choosing the colour tables: `_encodeGif` -/

/-- Lines 182-190 of `_encodeGif`: the loop value handed to the writer;
`none` is `null`. -/
def encodeLoopCount (loops : Nat) : Option Nat :=
  if loops > 0 then
    if loops = 1 then none else some (loops - 1)
  else some loops

/-- Lines 41-49 of `decodeGif`: the loop count of the container from the
value `reader.loopCount()`; `none` is a value that is not an integer
(`null`). -/
def decodeLoops (readerLoopCount : Option Nat) : Nat :=
  match readerLoopCount with
  | some loops => if loops > 0 then loops + 1 else loops
  | none => 1

/-- The `for` loop of lines 194-205 from index `i` on, with `n` iterations
left to reach `frames.length`.  The palette is taken from `frame[i]`, an
element of the global `frame`, and the message of the capacity error is the
literal text of the source's template, which has no substitution. -/
def localPalettesLoop (frameGlobal : Option (List GifFrame)) :
    Nat → Nat → Bool → List Palette → Except Failure (Bool × List Palette)
  | 0, _, usesTransparency, localPalettes => .ok (usesTransparency, localPalettes)
  | n + 1, i, usesTransparency, localPalettes =>
    match frameGlobal with
    | none => .error (.referenceError "frame is not defined")
    | some frame =>
      match frame[i]? with
      | none => .error (.typeError "Cannot read property 'makePalette' of undefined")
      | some frameI =>
        let palette := frameI.makePalette
        let palette := { palette with indexSize := palette.colors.length }
        let palette :=
          if palette.usesTransparency then { palette with indexSize := palette.indexSize + 1 }
          else palette
        let usesTransparency := if palette.usesTransparency then true else usesTransparency
        if palette.indexSize > 256 then
          .error (.gifError "Frame \x7b$i\x7d uses more than 256 color indexes")
        else
          localPalettesLoop frameGlobal n (i + 1) usesTransparency (localPalettes ++ [palette])

/-- Lines 192-205 of `_encodeGif`: `usesTransparency` and `localPalettes`
after the loop. -/
def collectLocalPalettes (frameGlobal : Option (List GifFrame)) (frames : List GifFrame) :
    Except Failure (Bool × List Palette) :=
  localPalettesLoop frameGlobal frames.length 0 false []

/-- Lines 206-214 of `_encodeGif`: the check of the caller's transparency
assertion. -/
def checkTransparency (spec : GifSpec) (usesTransparency : Bool) : Except Failure Unit :=
  match spec.usesTransparency with
  | none => .ok ()
  | some specUses =>
    if usesTransparency ≠ specUses then
      let specSays := if specUses then "uses" else "does not use"
      let gifSays := if usesTransparency then "uses" else "does not use"
      .error (.gifError (s!"Gif spec asserts that GIF {specSays} " ++
        s!"transparency, but the GIF actually {gifSays} it " ++
        "(try not specifying 'usesTransparency')"))
    else .ok ()

/-- The `insert` of the ordered set `RBTree((a, b) => (a - b))`, on the
ascending list of its elements: an element that is present is not added. -/
def rbInsert : List Nat → Nat → List Nat
  | [], color => [color]
  | c :: rest, color =>
    if color < c then color :: c :: rest
    else if color = c then c :: rest
    else c :: rbInsert rest color

/-- The `find` of the ordered set: the element, or `null`. -/
def rbFind (tree : List Nat) (color : Nat) : Option Nat :=
  if color ∈ tree then some color else none

/-- Whether the value that `find` returned is truthy: `null` and `0` are
not. -/
def truthy : Option Nat → Bool
  | none => false
  | some v => decide (v ≠ 0)

/-- Lines 226-235 of `_encodeGif`: the elements of `globalPaletteTree` in
ascending order, as its iterator yields them. -/
def globalPaletteTree (localPalettes : List Palette) : List Nat :=
  localPalettes.foldl
    (fun tree palette =>
      palette.colors.foldl
        (fun tree color => if truthy (rbFind tree color) then tree else rbInsert tree color)
        tree)
    []

/-- Lines 236-239 of `_encodeGif`: the index size of the global palette. -/
def globalIndexSize (usesTransparency : Bool) (localPalettes : List Palette) : Nat :=
  let indexSize := (globalPaletteTree localPalettes).length
  if usesTransparency then indexSize + 1 else indexSize

/-- Lines 244-249 of `_encodeGif`: the object `globalPalette`. -/
def makeGlobalPalette (usesTransparency : Bool) (localPalettes : List Palette) : Palette :=
  { colors := globalPaletteTree localPalettes
    indexSize := globalIndexSize usesTransparency localPalettes
    usesTransparency := usesTransparency }

/-- The encoder call that `_encodeGif` ends with, with its arguments:
`_encodeLocal`, `_encodeGlobal`, or in size mode both, of which the shorter
result is returned. -/
inductive Encoding where
  | encodeLocal (bufferSizeEst : JSNum) (localPalettes : List Palette)
      (loopCount : Option Nat)
  | encodeGlobal (bufferSizeEst : JSNum) (globalPalette : Palette) (loopCount : Option Nat)
  | encodeBoth (globalSizeEst : JSNum) (globalPalette : Palette) (localSizeEst : JSNum)
      (localPalettes : List Palette) (loopCount : Option Nat)
  deriving DecidableEq, Repr

/-- The loop value that the encoder calls of an `Encoding` hand to the
writer's constructor (`options.loop`). -/
def Encoding.loopCount : Encoding → Option Nat
  | .encodeLocal _ _ loopCount => loopCount
  | .encodeGlobal _ _ loopCount => loopCount
  | .encodeBoth _ _ _ _ loopCount => loopCount

/-- Lines 255-262 of `_encodeGif`: the choice by estimate of the mode
`OptimizeBoth`. -/
def chooseByEstimate (globalSizeEst localSizeEst : JSNum) (globalPalette : Palette)
    (localPalettes : List Palette) (loopCount : Option Nat) : Encoding :=
  if globalSizeEst.le localSizeEst then .encodeGlobal globalSizeEst globalPalette loopCount
  else .encodeLocal localSizeEst localPalettes loopCount

/-- Lines 182-270 of `_encodeGif`: everything up to the encoder calls, which
are returned as an `Encoding`. -/
def encodeGifChoice (frameGlobal : Option (List GifFrame)) (frames : List GifFrame)
    (spec : GifSpec) : Except Failure Encoding := do
  let loopCount := encodeLoopCount spec.loops
  let (usesTransparency, localPalettes) ← collectLocalPalettes frameGlobal frames
  checkTransparency spec usesTransparency
  let localSizeEst ← _getSizeEstimateLocal localPalettes frames
  if spec.optimization = .speed then
    return .encodeLocal localSizeEst localPalettes loopCount
  if globalIndexSize usesTransparency localPalettes > 256 then
    return .encodeLocal localSizeEst localPalettes loopCount
  let globalPalette := makeGlobalPalette usesTransparency localPalettes
  let globalSizeEst ← _getSizeEstimateGlobal globalPalette frames
  if spec.optimization = .both then
    return chooseByEstimate globalSizeEst localSizeEst globalPalette localPalettes loopCount
  return .encodeBoth globalSizeEst globalPalette localSizeEst localPalettes loopCount

/-- The encoder calls of an `Encoding`.  In size mode the global encoding is
made first, then the local one, and the first is returned when its `length`
is `<=` that of the second. -/
def runEncoding {W : Type} (host : Host W) (frames : List GifFrame) (spec : GifSpec) :
    Encoding → Except Failure Gif
  | .encodeLocal bufferSizeEst localPalettes loopCount =>
    _encodeLocal host frames spec bufferSizeEst localPalettes loopCount
  | .encodeGlobal bufferSizeEst globalPalette loopCount =>
    _encodeGlobal host frames spec bufferSizeEst globalPalette loopCount
  | .encodeBoth globalSizeEst globalPalette localSizeEst localPalettes loopCount => do
    let globalBuffer ← _encodeGlobal host frames spec globalSizeEst globalPalette loopCount
    let localBuffer ← _encodeLocal host frames spec localSizeEst localPalettes loopCount
    pure (if (host.gifLength globalBuffer).le (host.gifLength localBuffer) then globalBuffer
      else localBuffer)

/-- Source `_encodeGif`. -/
def _encodeGif {W : Type} (host : Host W) (frames : List GifFrame) (spec : GifSpec) :
    Except Failure Gif := do
  let encoding ← encodeGifChoice host.frame frames spec
  runEncoding host frames spec encoding

/-! ## The entry point `encodeGif` -/

/-- The spec object that a caller hands to `encodeGif`; `none` is a property
that is absent. -/
structure CallerSpec where
  width : Option Nat
  height : Option Nat
  loops : Option Nat
  optimization : Option Optimization
  usesTransparency : Option Bool
  deriving DecidableEq, Repr

/-- Lines 74-84 of `encodeGif`: `maxWidth` after the `forEach`. -/
def maxFrameWidth (frames : List GifFrame) : Nat :=
  frames.foldl
    (fun maxWidth frame =>
      let width := frame.xOffset + frame.bitmap.width
      if width > maxWidth then width else maxWidth)
    0

/-- Lines 74-84 of `encodeGif`: `maxHeight` after the `forEach`. -/
def maxFrameHeight (frames : List GifFrame) : Nat :=
  frames.foldl
    (fun maxHeight frame =>
      let height := frame.yOffset + frame.bitmap.height
      if height > maxHeight then height else maxHeight)
    0

/-- An optional number inside a template literal. -/
def templateText : Option Nat → String
  | none => "undefined"
  | some n => toString n

/-- The error of lines 89-92 of `encodeGif`. -/
def dimensionsError (spec : CallerSpec) (maxWidth maxHeight : Nat) : Failure :=
  let width := templateText spec.width
  let height := templateText spec.height
  .gifError (s!"GIF dimensions {width} x {height} != max frame " ++
    s!"dimensions {maxWidth} x {maxHeight} " ++ "(try not specifying GIF dimensions)")

/-- Line 86 of `encodeGif`: `spec.width && spec.width !== maxWidth ||
spec.height && spec.height !== maxHeight`, as a condition. -/
def dimensionsMismatch (spec : CallerSpec) (maxWidth maxHeight : Nat) : Bool :=
  (truthy spec.width && decide (spec.width ≠ some maxWidth)) ||
    (truthy spec.height && decide (spec.height ≠ some maxHeight))

/-- Source `GifCodec.encodeGif`, for a frame array (`frames` is not `null`).
The outer result is what the call itself does, return a promise or throw;
the inner result is how the promise settles.  Line 100 reads the identifier
`usesTransparency`, which the method does not declare: `usesTransparencyGlobal`
is the binding of that global (`none`: not defined).  The optimization
constants of `Gif` are taken to be truthy. -/
def encodeGif {W : Type} (host : Host W) (usesTransparencyGlobal : Option (Option Bool))
    (frames : List GifFrame) (spec : CallerSpec) : Except Failure (Except Failure Gif) :=
  if frames.length = 0 then .error (.gifError "there are no frames")
  else
    let maxWidth := maxFrameWidth frames
    let maxHeight := maxFrameHeight frames
    if dimensionsMismatch spec maxWidth maxHeight then
      .error (dimensionsError spec maxWidth maxHeight)
    else
      match usesTransparencyGlobal with
      | none => .error (.referenceError "usesTransparency is not defined")
      | some usesTransparency =>
        .ok (_encodeGif host frames
          { width := maxWidth, height := maxHeight
            loops := if truthy spec.loops then spec.loops.getD 0 else 0
            optimization := spec.optimization.getD .both
            usesTransparency := usesTransparency })

/-! ## Decoding -/

/-- What the external reader or its constructor throws: a string, which
`decodeGif` wraps in a `GifError`, or another exception. -/
inductive Thrown where
  | string (msg : String)
  | failure (f : Failure)
  deriving DecidableEq, Repr

/-- The object that `reader.frameInfo(frameIndex)` returns. -/
structure FrameInfo where
  x : Nat
  y : Nat
  width : Nat
  height : Nat
  disposal : Nat
  interlaced : Bool
  delay : Nat
  deriving DecidableEq, Repr

/-- An `Omggif.GifReader`: `decodeAndBlitFrameRGBA frameIndex buffer` is the
content of `buffer` after the call. -/
structure GifReader where
  numFrames : Nat
  width : Nat
  height : Nat
  loopCount : Option Nat
  frameInfo : Nat → Except Thrown FrameInfo
  decodeAndBlitFrameRGBA : Nat → List Nat → Except Thrown (List Nat)

/-- The arguments of `new GifFrame(width, height, buffer, options)` in
`_decodeFrame`. -/
structure DecodedFrame where
  width : Nat
  height : Nat
  data : List Nat
  xOffset : Nat
  yOffset : Nat
  disposalMethod : Nat
  isInterlaced : Bool
  delayHundreths : Nat
  deriving DecidableEq, Repr

/-- The arguments of `new Gif(buffer, frames, spec)` in `decodeGif`. -/
structure DecodedGif where
  buffer : List Nat
  frames : List DecodedFrame
  width : Nat
  height : Nat
  loops : Nat
  usesTransparency : Bool
  deriving DecidableEq, Repr

/-- A `GifCodec` object: `_transparentRGB` is `none` for `null`, else the
three bytes of the array. -/
structure GifCodec where
  _transparentRGB : Option (Nat × Nat × Nat)
  deriving DecidableEq, Repr

/-- Source `GifCodec.constructor`; `transparentRGB = none` is an option that
is absent or not a number. -/
def GifCodec.new (transparentRGB : Option Nat) : GifCodec :=
  match transparentRGB with
  | none => { _transparentRGB := none }
  | some c =>
    if c ≠ 0 then
      { _transparentRGB := some ((c >>> 16) &&& 0xff, (c >>> 8) &&& 0xff, c &&& 0xff) }
    else { _transparentRGB := none }

/-- The `for` loop of lines 126-131 of `_decodeFrame` from offset `i` on:
at the first alpha byte that is 0 it sets the flag and `i = buffer.length`.
The loop runs at most `ceil(length / 4)` times. -/
def transparencyScanLoop (buffer : List Nat) : Nat → Nat → Bool → Bool
  | 0, _, usesTransparency => usesTransparency
  | fuel + 1, i, usesTransparency =>
    if i < buffer.length then
      if buffer[i]? = some 0 then
        transparencyScanLoop buffer fuel (buffer.length + 4) true
      else transparencyScanLoop buffer fuel (i + 4) usesTransparency
    else usesTransparency

/-- The `for` loop of lines 135-142 of `_decodeFrame` from offset `i` on:
the buffer and the flag after it. -/
def substituteLoop (rgb : Nat × Nat × Nat) : Nat → Nat → List Nat → Bool → List Nat × Bool
  | 0, _, buffer, usesTransparency => (buffer, usesTransparency)
  | fuel + 1, i, buffer, usesTransparency =>
    if i < buffer.length then
      if buffer[i]? = some 0 then
        let buffer := bufferSet buffer (i - 3) rgb.1
        let buffer := bufferSet buffer (i - 2) rgb.2.1
        let buffer := bufferSet buffer (i - 1) rgb.2.2
        substituteLoop rgb fuel (i + 4) buffer true
      else substituteLoop rgb fuel (i + 4) buffer usesTransparency
    else (buffer, usesTransparency)

/-- Lines 121-143 of `_decodeFrame`: the buffer and the flag
`usesTransparency` after the scan of the decoded buffer. -/
def scanDecoded (codec : GifCodec) (buffer : List Nat) (alreadyUsedTransparency : Bool) :
    List Nat × Bool :=
  match codec._transparentRGB with
  | none =>
    if !alreadyUsedTransparency then
      (buffer, transparencyScanLoop buffer buffer.length 3 false)
    else (buffer, false)
  | some rgb => substituteLoop rgb buffer.length 3 buffer false

/-- Source `GifCodec._decodeFrame`. -/
def _decodeFrame (codec : GifCodec) (reader : GifReader) (frameIndex : Nat)
    (alreadyUsedTransparency : Bool) : Except Thrown (DecodedFrame × Bool) := do
  let info ← reader.frameInfo frameIndex
  let buffer := newBuffer (info.width * info.height * 4)
  let buffer ← reader.decodeAndBlitFrameRGBA frameIndex buffer
  let (buffer, usesTransparency) := scanDecoded codec buffer alreadyUsedTransparency
  pure
    ({ width := info.width, height := info.height, data := buffer, xOffset := info.x,
       yOffset := info.y, disposalMethod := info.disposal, isInterlaced := info.interlaced,
       delayHundreths := info.delay },
      usesTransparency)

/-- The `for` loop of lines 52-59 of `decodeGif` from frame `i` on, with `n`
frames left: `frames` and `spec.usesTransparency` after it. -/
def decodeFramesLoop (codec : GifCodec) (reader : GifReader) :
    Nat → Nat → List DecodedFrame → Bool → Except Thrown (List DecodedFrame × Bool)
  | 0, _, frames, usesTransparency => .ok (frames, usesTransparency)
  | n + 1, i, frames, usesTransparency => do
    let frameInfo ← _decodeFrame codec reader i usesTransparency
    decodeFramesLoop codec reader n (i + 1) (frames ++ [frameInfo.1])
      (if frameInfo.2 then true else usesTransparency)

/-- Source `GifCodec.decodeGif`: how the returned promise settles.
`newReader` is `new Omggif.GifReader(buffer)`. -/
def decodeGif (codec : GifCodec) (newReader : List Nat → Except Thrown GifReader)
    (buffer : List Nat) : Except Failure DecodedGif :=
  let attempt : Except Thrown DecodedGif := do
    let reader ← newReader buffer
    let (frames, usesTransparency) ← decodeFramesLoop codec reader reader.numFrames 0 [] false
    pure
      { buffer := buffer, frames := frames, width := reader.width, height := reader.height,
        loops := decodeLoops reader.loopCount, usesTransparency := usesTransparency }
  match attempt with
  | .ok gif => .ok gif
  | .error (.string msg) => .error (.gifError msg)
  | .error (.failure f) => .error f

/-! ## The spec's quantities -/

/-- The pixel bit width in the spec's words: the least number of bits, at
least one, whose `2^w` values cover `indexSize` indices. -/
def specPixelBitWidth (indexSize : Nat) : Nat := max 1 (Nat.clog 2 indexSize)

/-- The spec's `ceil(a / b)`: the ceiling of the exact quotient. -/
def specCeil (a b : Nat) : Nat := ⌈(a : ℚ) / (b : ℚ)⌉₊

/-- The spec's `d = ceil(width*height*bitWidth/8)` of a frame. -/
def specDataBytes (frame : GifFrame) (bitWidth : Nat) : Nat :=
  specCeil (frame.bitmap.width * frame.bitmap.height * bitWidth) 8

/-- The spec's frame term `22 + d + ceil(d/255) + 3*indexSize`. -/
def specFrameBytes (frame : GifFrame) (bitWidth indexSize : Nat) : Nat :=
  22 + specDataBytes frame bitWidth + specCeil (specDataBytes frame bitWidth) 255 +
    3 * indexSize

/-- The 24-bit RGB value of pixel `k` of a pixel buffer. -/
def pixelColor (data : List Nat) (k : Nat) : Nat :=
  bufferGet data (4 * k) * 2 ^ 16 + bufferGet data (4 * k + 1) * 2 ^ 8 +
    bufferGet data (4 * k + 2)

/-- A decoded pixel buffer contains a pixel with alpha 0. -/
def hasTransparentPixel (data : List Nat) : Prop := ∃ k, data[4 * k + 3]? = some 0

/-- The byte of the substitution colour `c` for the channel `channel` (0 for
R, 1 for G, 2 for B), in the claim's words. -/
def substitutionByte (c channel : Nat) : Nat :=
  if channel = 0 then (c >>> 16) &&& 255
  else if channel = 1 then (c >>> 8) &&& 255
  else c &&& 255

/-- The number of distinct colours in the union of the palettes. -/
def distinctColors (palettes : List Palette) : Nat :=
  ((palettes.flatMap (fun palette => palette.colors)).dedup).length

/-! ## Sample inputs -/

/-- A 3x3 frame with one black opaque pixel at pixel `k` and the other pixels
fully transparent; its palette is black plus transparency. -/
def blackDotFrame (k : Nat) : GifFrame :=
  { bitmap :=
      { width := 3, height := 3,
        data := (List.range 9).flatMap
          (fun j => if j = k then [0, 0, 0, 255] else [0, 0, 0, 0]) }
    xOffset := 0, yOffset := 0, isInterlaced := false, delayHundreths := 0,
    disposalMethod := 0,
    makePalette := { colors := [0], usesTransparency := true, indexSize := 0 } }

/-- The spec's example: three 3x3 frames, each with one black opaque pixel
at a different position and otherwise fully transparent. -/
def blackDotFrames : List GifFrame := [blackDotFrame 0, blackDotFrame 4, blackDotFrame 8]

/-- A frame of the given size and pixel data whose palette object is
`palette`. -/
def sampleFrame (width height : Nat) (data : List Nat) (palette : Palette) : GifFrame :=
  { bitmap := { width := width, height := height, data := data }
    xOffset := 0, yOffset := 0, isInterlaced := false, delayHundreths := 0,
    disposalMethod := 0, makePalette := palette }

/-- Two frames whose palettes fit one by one and not together: a 16x16
frame with the 256 opaque colours `0..255`, and a 1x1 frame that is fully
transparent. -/
def fullPaletteFrames : List GifFrame :=
  [sampleFrame 16 16 ((List.range 256).flatMap (fun c => [0, 0, c, 255]))
      { colors := List.range 256, usesTransparency := false, indexSize := 0 },
    sampleFrame 1 1 [0, 0, 0, 0] { colors := [], usesTransparency := true, indexSize := 0 }]

/-- Two frames of which the second, at index 1, has the 257 opaque colours
`0..256`. -/
def oversizedFrames : List GifFrame :=
  [blackDotFrame 0,
    sampleFrame 257 1 ((List.range 257).flatMap (fun c => [0, c / 256, c % 256, 255]))
      { colors := List.range 257, usesTransparency := false, indexSize := 0 }]

/-- A global palette of six colours that uses transparency. -/
def sixColorPalette : Palette :=
  { colors := [10, 20, 30, 40, 50, 60], usesTransparency := true, indexSize := 7 }

/-- Three equal 2x1 frames: an opaque pixel of the colour 50, then a fully
transparent pixel. -/
def sixColorFrames : List GifFrame :=
  List.replicate 3
    (sampleFrame 2 1 [0, 0, 50, 255, 0, 0, 0, 0]
      { colors := [50], usesTransparency := true, indexSize := 0 })

/-- A frame with no pixels; its palette has no colours and no
transparency. -/
def emptyFrame : GifFrame :=
  sampleFrame 0 0 [] { colors := [], usesTransparency := false, indexSize := 0 }

/-- A reader of a GIF with the given decoded frames, all 1 pixel high, that
reports no loop count. -/
def sampleReader (decoded : List (List Nat)) : GifReader :=
  { numFrames := decoded.length, width := 1, height := 1, loopCount := none
    frameInfo := fun i =>
      .ok { x := 0, y := 0, width := (decoded.getD i []).length / 4, height := 1,
            disposal := 0, interlaced := false, delay := 0 }
    decodeAndBlitFrameRGBA := fun i _ => .ok (decoded.getD i []) }

/-- A spec with the given optimization and loop count and no transparency
assertion. -/
def sampleSpec (optimization : Optimization) (loops : Nat) : GifSpec :=
  { width := 3, height := 3, loops := loops, optimization := optimization,
    usesTransparency := none }

/-- A host in which the global `frame` is bound to `frames`, with a writer
that records the `addFrame` calls. -/
def sampleHost (frames : List GifFrame) : Host (List AddFrameCall) :=
  { frame := some frames
    newWriter := fun _ _ _ _ => .ok []
    addFrame := fun calls call => .ok (calls ++ [call])
    written := fun calls => calls.flatMap (fun call => call.indexedPixels)
    gifLength := fun gif => .num gif.buffer.length }

/-- The host `sampleHost frames` with a `Buffer` constructor that checks its
argument: `new Buffer(NaN)` throws, as it does in Node.js from version 10
on. -/
def checkedBufferHost (frames : List GifFrame) : Host (List AddFrameCall) :=
  { frame := some frames
    newWriter := fun bufferSize _ _ _ =>
      match bufferSize with
      | .nan => .error (.writerError "new Buffer(NaN): the size is out of range")
      | .num _ => .ok []
    addFrame := fun calls call => .ok (calls ++ [call])
    written := fun calls => calls.flatMap (fun call => call.indexedPixels)
    gifLength := fun gif => .num gif.buffer.length }

/-! ## Size estimation: lemmas -/

theorem toInt32_of_lt (m : Nat) (h : m < 2 ^ 31) : toInt32 (m : Int) = (m : Int) := by
  unfold toInt32
  norm_num at h ⊢
  omega

theorem pixelBitWidthLoop_spec : ∀ (k fuel m w : Nat), m < 2 ^ k → k ≤ 31 → k < fuel →
    ∃ r, pixelBitWidthLoop fuel (m : Int) w = some (w + r) ∧ r ≤ k ∧ m < 2 ^ r ∧
      ∀ v, m < 2 ^ v → r ≤ v := by
  intro k
  induction k with
  | zero =>
    intro fuel m w hm _ hf
    obtain ⟨f, rfl⟩ : ∃ f, fuel = f + 1 := ⟨fuel - 1, by omega⟩
    have hm0 : m = 0 := by simpa using hm
    subst hm0
    exact ⟨0, by simp [pixelBitWidthLoop], le_refl _, by simp, fun v _ => Nat.zero_le v⟩
  | succ k ih =>
    intro fuel m w hm hk hf
    obtain ⟨f, rfl⟩ : ∃ f, fuel = f + 1 := ⟨fuel - 1, by omega⟩
    by_cases hm0 : m = 0
    · subst hm0
      exact ⟨0, by simp [pixelBitWidthLoop], Nat.zero_le _, by simp, fun v _ => Nat.zero_le v⟩
    · have hlt : m < 2 ^ 31 := lt_of_lt_of_le hm (Nat.pow_le_pow_right (by decide) hk)
      have hhalf : m / 2 < 2 ^ k := by
        rw [pow_succ] at hm
        omega
      obtain ⟨r, hr, hrk, hmr, hmin⟩ := ih f (m / 2) (w + 1) hhalf (by omega) (by omega)
      refine ⟨r + 1, ?_, by omega, ?_, ?_⟩
      · have hne : (m : Int) ≠ 0 := by exact_mod_cast hm0
        have hdiv : toInt32 (m : Int) / 2 = ((m / 2 : Nat) : Int) := by
          rw [toInt32_of_lt m hlt]; omega
        rw [pixelBitWidthLoop, if_neg hne, hdiv, hr]
        rw [show w + 1 + r = w + (r + 1) by omega]
      · rw [pow_succ]; omega
      · intro v hv
        cases v with
        | zero => simp at hv; omega
        | succ v =>
          have : m / 2 < 2 ^ v := by rw [pow_succ] at hv; omega
          have := hmin v this
          omega

theorem getPixelBitWidth_eq (palette : Palette) (h1 : 1 ≤ palette.indexSize)
    (h2 : palette.indexSize ≤ 2 ^ 31) :
    _getPixelBitWidth palette = .ok (specPixelBitWidth palette.indexSize) := by
  obtain ⟨r, hr, -, hlt, hmin⟩ :=
    pixelBitWidthLoop_spec 31 64 (palette.indexSize - 1) 0 (by omega) (le_refl _) (by decide)
  have hcast : ((palette.indexSize - 1 : Nat) : Int) = (palette.indexSize : Int) - 1 := by
    omega
  have hclog : Nat.clog 2 palette.indexSize = r := by
    apply le_antisymm
    · exact (Nat.le_pow_iff_clog_le (by decide : 1 < 2)).1 (by omega)
    · apply hmin
      have := Nat.le_pow_clog (by decide : 1 < 2) palette.indexSize
      omega
  unfold _getPixelBitWidth specPixelBitWidth
  rw [← hcast, hr, hclog]
  simp only [Nat.zero_add]
  by_cases h0 : r > 0
  · simp [h0]; omega
  · have : r = 0 := by omega
    simp [this]

theorem mathCeilDiv_eq_specCeil (a b : Nat) (hb : 0 < b) : mathCeilDiv a b = specCeil a b := by
  unfold mathCeilDiv specCeil
  have hbq : (0 : ℚ) < (b : ℚ) := by exact_mod_cast hb
  symm
  by_cases h0 : (a + b - 1) / b = 0
  · have ha : a = 0 := by
      by_contra hne
      have : b ≤ a + b - 1 := by omega
      have := (Nat.div_pos this hb)
      omega
    rw [h0]
    subst ha
    simp
  · rw [Nat.ceil_eq_iff h0]
    have hmul := Nat.div_mul_le_self (a + b - 1) b
    have hlt := Nat.lt_div_mul_add hb (a := a + b - 1)
    constructor
    · rw [lt_div_iff₀ hbq]
      have : ((a + b - 1) / b - 1) * b < a := by
        have h1 : 1 ≤ (a + b - 1) / b := Nat.one_le_iff_ne_zero.2 h0
        have : ((a + b - 1) / b - 1) * b + b = (a + b - 1) / b * b := by
          rw [Nat.sub_mul]; have := Nat.le_mul_of_pos_left b h1; omega
        omega
      exact_mod_cast this
    · rw [div_le_iff₀ hbq]
      have : a ≤ (a + b - 1) / b * b := by omega
      exact_mod_cast this

theorem getFrameSizeEst_palette (frame : GifFrame) (palette : Palette) (w : Nat) :
    _getFrameSizeEst frame (.palette palette) w =
      .num (specFrameBytes frame w palette.indexSize) := by
  simp only [_getFrameSizeEst, specFrameBytes, specDataBytes, PaletteArg.indexSize, JSNum.mul,
    JSNum.add, PER_FRAME_OVERHEAD, mathCeilDiv_eq_specCeil _ _ (by decide : 0 < 8),
    mathCeilDiv_eq_specCeil _ _ (by decide : 0 < 255)]
  congr 1
  ring

theorem getFrameSizeEst_number (frame : GifFrame) (n w : Nat) :
    _getFrameSizeEst frame (.number n) w = .nan := by
  simp [_getFrameSizeEst, PaletteArg.indexSize, JSNum.mul, JSNum.add]

theorem sizeEstimateLocalLoop_eq (palettes : List Palette)
    (hsz : ∀ p ∈ palettes, 1 ≤ p.indexSize ∧ p.indexSize ≤ 256) :
    ∀ (frames : List GifFrame) (i acc : Nat), frames.length + i = palettes.length →
      sizeEstimateLocalLoop palettes frames i (.num acc) =
        .ok (.num (acc + (List.zipWith
          (fun frame palette =>
            specFrameBytes frame (specPixelBitWidth palette.indexSize) palette.indexSize)
          frames (palettes.drop i)).sum)) := by
  intro frames
  induction frames with
  | nil => intro i acc _; simp [sizeEstimateLocalLoop]
  | cons frame rest ih =>
    intro i acc hlen
    have hi : i < palettes.length := by simp at hlen; omega
    have hmem : palettes[i] ∈ palettes := List.getElem_mem hi
    have hbw := getPixelBitWidth_eq palettes[i] (hsz _ hmem).1
      (le_trans (hsz _ hmem).2 (by norm_num))
    have hdrop : palettes.drop i = palettes[i] :: palettes.drop (i + 1) :=
      List.drop_eq_getElem_cons hi
    rw [sizeEstimateLocalLoop, List.getElem?_eq_getElem hi]
    simp only [hbw, getFrameSizeEst_palette, JSNum.add]
    rw [ih (i + 1) _ (by simp at hlen ⊢; omega)]
    conv_rhs => rw [hdrop]
    simp only [List.zipWith_cons_cons, List.sum_cons, Nat.add_assoc]

/-! ## Size estimation: theorems -/

/-- C10: for an index size `n` with `1 ≤ n ≤ 256`, `_getPixelBitWidth` returns
the least `w ≥ 1` with `n ≤ 2^w`; this `w` is the number of bits of the largest
index `n - 1`, raised to 1 when that is 0, and it lies between 1 and 8. -/
theorem getPixelBitWidth_least (palette : Palette) (h1 : 1 ≤ palette.indexSize)
    (h2 : palette.indexSize ≤ 256) :
    ∃ w, _getPixelBitWidth palette = .ok w ∧ w = specPixelBitWidth palette.indexSize ∧
      1 ≤ w ∧ palette.indexSize ≤ 2 ^ w ∧
      (∀ v, 1 ≤ v → palette.indexSize ≤ 2 ^ v → w ≤ v) ∧
      palette.indexSize - 1 < 2 ^ w ∧ (w = 1 ∨ 2 ^ (w - 1) ≤ palette.indexSize - 1) ∧
      w ≤ 8 := by
  have hpow : palette.indexSize ≤ 2 ^ Nat.clog 2 palette.indexSize :=
    Nat.le_pow_clog (by decide) _
  have hcover : palette.indexSize ≤ 2 ^ specPixelBitWidth palette.indexSize :=
    le_trans hpow (Nat.pow_le_pow_right (by decide) (le_max_right _ _))
  have hmin : ∀ v, 1 ≤ v → palette.indexSize ≤ 2 ^ v →
      specPixelBitWidth palette.indexSize ≤ v := fun v hv hle =>
    max_le hv ((Nat.le_pow_iff_clog_le (by decide)).1 hle)
  refine ⟨_, getPixelBitWidth_eq palette h1 (le_trans h2 (by norm_num)), rfl,
    le_max_left _ _, hcover, hmin, by omega, ?_, hmin 8 (by decide) (by simpa using h2)⟩
  by_cases hw : specPixelBitWidth palette.indexSize = 1
  · exact Or.inl hw
  · right
    have h1w : 1 ≤ specPixelBitWidth palette.indexSize := le_max_left _ _
    by_contra hlt
    have := hmin (specPixelBitWidth palette.indexSize - 1) (by omega) (by omega)
    omega

/-- Witness of C10 at the index size 5, which needs 3 bits. -/
theorem getPixelBitWidth_least_witness :
    ∃ w, _getPixelBitWidth ⟨[1, 2, 3, 4], true, 5⟩ = .ok w ∧ w = specPixelBitWidth 5 ∧
      1 ≤ w ∧ 5 ≤ 2 ^ w ∧ (∀ v, 1 ≤ v → 5 ≤ 2 ^ v → w ≤ v) ∧
      5 - 1 < 2 ^ w ∧ (w = 1 ∨ 2 ^ (w - 1) ≤ 5 - 1) ∧ w ≤ 8 :=
  getPixelBitWidth_least ⟨[1, 2, 3, 4], true, 5⟩ (by decide) (by decide)

/-- C8: for frames with their own palettes, each of index size 1 to 256,
`_getSizeEstimateLocal` is `34` plus the sum over the frames of
`22 + d + ceil(d/255) + 3*indexSize` with `d = ceil(width*height*bitWidth/8)`,
the index size and the bit width being those of the frame's own palette. -/
theorem getSizeEstimateLocal_formula (palettes : List Palette) (frames : List GifFrame)
    (hlen : frames.length = palettes.length)
    (hsz : ∀ p ∈ palettes, 1 ≤ p.indexSize ∧ p.indexSize ≤ 256) :
    _getSizeEstimateLocal palettes frames =
      .ok (.num (34 + (List.zipWith
        (fun frame palette =>
          specFrameBytes frame (specPixelBitWidth palette.indexSize) palette.indexSize)
        frames palettes).sum)) := by
  have h := sizeEstimateLocalLoop_eq palettes hsz frames 0 PER_GIF_OVERHEAD (by simpa using hlen)
  simpa [_getSizeEstimateLocal, PER_GIF_OVERHEAD] using h


/-- Witness of C8: a 3x3 frame with a palette of index size 2 and a 2x1
frame with a palette of index size 5. -/
theorem getSizeEstimateLocal_formula_witness :
    [blackDotFrame 0, sampleFrame 2 1 [] ⟨[1, 2, 3, 4], true, 5⟩].length =
        [(⟨[0], true, 2⟩ : Palette), ⟨[1, 2, 3, 4], true, 5⟩].length ∧
    (∀ p ∈ [(⟨[0], true, 2⟩ : Palette), ⟨[1, 2, 3, 4], true, 5⟩],
      1 ≤ p.indexSize ∧ p.indexSize ≤ 256) ∧
    _getSizeEstimateLocal [⟨[0], true, 2⟩, ⟨[1, 2, 3, 4], true, 5⟩]
        [blackDotFrame 0, sampleFrame 2 1 [] ⟨[1, 2, 3, 4], true, 5⟩] =
      .ok (.num (34 + (List.zipWith
        (fun frame palette =>
          specFrameBytes frame (specPixelBitWidth palette.indexSize) palette.indexSize)
        [blackDotFrame 0, sampleFrame 2 1 [] ⟨[1, 2, 3, 4], true, 5⟩]
        [(⟨[0], true, 2⟩ : Palette), ⟨[1, 2, 3, 4], true, 5⟩]).sum)) :=
  ⟨rfl, by decide, getSizeEstimateLocal_formula _ _ rfl (by decide)⟩

theorem JSNum.add_nan (a : JSNum) : a.add .nan = .nan := by
  cases a <;> rfl

theorem foldl_const_nan (frames : List GifFrame) :
    frames.foldl (fun (_ : JSNum) (_ : GifFrame) => JSNum.nan) JSNum.nan = JSNum.nan := by
  induction frames with
  | nil => rfl
  | cons frame rest ih => simpa using ih

/-- With at least one frame the global estimate is `NaN`. -/
theorem getSizeEstimateGlobal_nan (globalPalette : Palette) (frame : GifFrame)
    (rest : List GifFrame) (h1 : 1 ≤ globalPalette.indexSize)
    (h2 : globalPalette.indexSize ≤ 256) :
    _getSizeEstimateGlobal globalPalette (frame :: rest) = .ok .nan := by
  have hbw := getPixelBitWidth_eq globalPalette h1 (le_trans h2 (by norm_num))
  simp only [_getSizeEstimateGlobal, hbw, bind, Except.bind, pure, Except.pure,
    List.foldl_cons, getFrameSizeEst_number, JSNum.add_nan]
  rw [foldl_const_nan]

/-- Without frames the global estimate is `34 + 3*indexSize`. -/
theorem getSizeEstimateGlobal_nil (globalPalette : Palette) (h1 : 1 ≤ globalPalette.indexSize)
    (h2 : globalPalette.indexSize ≤ 256) :
    _getSizeEstimateGlobal globalPalette [] = .ok (.num (34 + globalPalette.indexSize * 3)) := by
  have hbw := getPixelBitWidth_eq globalPalette h1 (le_trans h2 (by norm_num))
  simp [_getSizeEstimateGlobal, hbw, bind, Except.bind, pure, Except.pure, PER_GIF_OVERHEAD]

/-- C7: the loop count round trip.  For every loop count `N`, the loop
correction of `decodeGif` applied to the value that `_encodeGif` hands to the
writer gives `N` back: `0` is handed over as `0` and read back as `0`, `1` as
`null` and read back as `1`, and `N + 2` as `N + 1` and read back as `N + 2`.
The value handed over is the loop value of every encoder call of
`_encodeGif`. -/
theorem loopCount_roundtrip (N : Nat) :
    decodeLoops (encodeLoopCount N) = N ∧
      encodeLoopCount 0 = some 0 ∧ decodeLoops (some 0) = 0 ∧
      encodeLoopCount 1 = none ∧ decodeLoops none = 1 ∧
      encodeLoopCount (N + 2) = some (N + 1) ∧ decodeLoops (some (N + 1)) = N + 2 ∧
      ∀ (frameGlobal : Option (List GifFrame)) (frames : List GifFrame) (spec : GifSpec),
        (encodeGifChoice frameGlobal frames { spec with loops := N }).map Encoding.loopCount =
          (encodeGifChoice frameGlobal frames { spec with loops := N }).map
            (fun _ => encodeLoopCount N) := by
  refine ⟨?_, rfl, rfl, rfl, rfl, ?_, ?_, ?_⟩
  · unfold encodeLoopCount decodeLoops
    by_cases h0 : N > 0
    · by_cases h1 : N = 1
      · simp [h1]
      · simp only [h0, h1, if_true, if_false]
        have : N - 1 > 0 := by omega
        simp only [this, if_true]
        omega
    · have : N = 0 := by omega
      simp [this]
  · simp [encodeLoopCount]
  · simp [decodeLoops]
  · intro frameGlobal frames spec
    unfold encodeGifChoice
    cases collectLocalPalettes frameGlobal frames with
    | error e => rfl
    | ok r =>
      obtain ⟨usesTransparency, localPalettes⟩ := r
      simp only [bind, Except.bind]
      cases checkTransparency { spec with loops := N } usesTransparency with
      | error e => rfl
      | ok u =>
        simp only []
        cases _getSizeEstimateLocal localPalettes frames with
        | error e => rfl
        | ok le =>
          simp only []
          by_cases hs : spec.optimization = .speed
          · simp [hs, Except.map, pure, Except.pure, Encoding.loopCount]
          · by_cases hg : globalIndexSize usesTransparency localPalettes > 256
            · simp [hs, hg, Except.map, pure, Except.pure, Encoding.loopCount]
            · cases hge : _getSizeEstimateGlobal
                (makeGlobalPalette usesTransparency localPalettes) frames with
              | error e => simp [hs, hg, hge, Except.map, pure, Except.pure, bind, Except.bind]
              | ok ge =>
                by_cases hb : spec.optimization = .both
                · by_cases hle : ge.le le = true <;>
                    simp [hs, hg, hge, hb, hle, Except.map, pure, Except.pure, bind,
                      Except.bind, chooseByEstimate, Encoding.loopCount]
                · simp [hs, hg, hge, hb, Except.map, pure, Except.pure, bind, Except.bind,
                    Encoding.loopCount]

/-! ## The global palette and the choice of tables -/

theorem mem_rbInsert (color x : Nat) : ∀ tree : List Nat,
    x ∈ rbInsert tree color ↔ x = color ∨ x ∈ tree := by
  intro tree
  induction tree with
  | nil => simp [rbInsert]
  | cons c rest ih =>
    unfold rbInsert
    by_cases h1 : color < c
    · simp [h1]
    · by_cases h2 : color = c
      · subst h2; simp
      · simp only [h1, h2, if_false, List.mem_cons, ih]
        tauto

theorem sorted_rbInsert (color : Nat) : ∀ tree : List Nat,
    tree.Sorted (· < ·) → (rbInsert tree color).Sorted (· < ·) := by
  intro tree
  induction tree with
  | nil => intro _; simp [rbInsert]
  | cons c rest ih =>
    intro hs
    unfold rbInsert
    by_cases h1 : color < c
    · simp only [h1, if_true]
      refine List.sorted_cons.2 ⟨?_, hs⟩
      intro b hb
      rcases List.mem_cons.1 hb with rfl | hb
      · exact h1
      · exact lt_trans h1 (List.rel_of_sorted_cons hs b hb)
    · by_cases h2 : color = c
      · simpa [h1, h2] using hs
      · simp only [h1, h2, if_false]
        refine List.sorted_cons.2 ⟨?_, ih (List.sorted_cons.1 hs).2⟩
        intro b hb
        rcases (mem_rbInsert color b rest).1 hb with rfl | hb
        · omega
        · exact List.rel_of_sorted_cons hs b hb

theorem treeStep_spec (tree : List Nat) (color : Nat) (hs : tree.Sorted (· < ·)) :
    (if truthy (rbFind tree color) then tree else rbInsert tree color).Sorted (· < ·) ∧
      ∀ x, x ∈ (if truthy (rbFind tree color) then tree else rbInsert tree color) ↔
        x = color ∨ x ∈ tree := by
  by_cases ht : truthy (rbFind tree color) = true
  · simp only [ht, if_true]
    refine ⟨hs, fun x => ⟨Or.inr, ?_⟩⟩
    rintro (rfl | hx)
    · unfold rbFind at ht
      by_cases hmem : x ∈ tree
      · exact hmem
      · simp [hmem, truthy] at ht
    · exact hx
  · simp only [ht]
    exact ⟨sorted_rbInsert color tree hs, fun x => mem_rbInsert color x tree⟩

theorem foldl_colors_spec (colors : List Nat) : ∀ tree : List Nat, tree.Sorted (· < ·) →
    (colors.foldl
      (fun tree color => if truthy (rbFind tree color) then tree else rbInsert tree color)
      tree).Sorted (· < ·) ∧
    ∀ x, x ∈ colors.foldl
      (fun tree color => if truthy (rbFind tree color) then tree else rbInsert tree color)
      tree ↔ x ∈ tree ∨ x ∈ colors := by
  induction colors with
  | nil => intro tree hs; simpa using hs
  | cons c rest ih =>
    intro tree hs
    obtain ⟨hs1, hm1⟩ := treeStep_spec tree c hs
    obtain ⟨hs2, hm2⟩ := ih _ hs1
    refine ⟨by simpa using hs2, fun x => ?_⟩
    rw [List.foldl_cons, hm2, hm1, List.mem_cons]
    tauto

theorem foldl_palettes_spec (palettes : List Palette) : ∀ tree : List Nat,
    tree.Sorted (· < ·) →
    (palettes.foldl
      (fun tree palette =>
        palette.colors.foldl
          (fun tree color => if truthy (rbFind tree color) then tree else rbInsert tree color)
          tree)
      tree).Sorted (· < ·) ∧
    ∀ x, x ∈ palettes.foldl
      (fun tree palette =>
        palette.colors.foldl
          (fun tree color => if truthy (rbFind tree color) then tree else rbInsert tree color)
          tree)
      tree ↔ x ∈ tree ∨ x ∈ palettes.flatMap (fun palette => palette.colors) := by
  induction palettes with
  | nil => intro tree hs; simpa using hs
  | cons p rest ih =>
    intro tree hs
    obtain ⟨hs1, hm1⟩ := foldl_colors_spec p.colors tree hs
    obtain ⟨hs2, hm2⟩ := ih _ hs1
    refine ⟨by simpa using hs2, fun x => ?_⟩
    rw [List.foldl_cons, hm2, hm1, List.flatMap_cons, List.mem_append]
    tauto

/-- The global colour list is strictly ascending and holds exactly the
colours of the palettes. -/
theorem globalPaletteTree_spec (palettes : List Palette) :
    (globalPaletteTree palettes).Sorted (· < ·) ∧
      ∀ x, x ∈ globalPaletteTree palettes ↔
        x ∈ palettes.flatMap (fun palette => palette.colors) := by
  obtain ⟨hs, hm⟩ := foldl_palettes_spec palettes [] (List.sorted_nil)
  exact ⟨hs, fun x => by rw [globalPaletteTree, hm]; simp⟩

theorem globalPaletteTree_length (palettes : List Palette) :
    (globalPaletteTree palettes).length = distinctColors palettes := by
  obtain ⟨hs, hm⟩ := globalPaletteTree_spec palettes
  unfold distinctColors
  apply List.Perm.length_eq
  rw [List.perm_ext_iff_of_nodup hs.nodup (List.nodup_dedup _)]
  intro x
  rw [hm, List.mem_dedup]

theorem localPalettesLoop_spec (frameGlobal : Option (List GifFrame)) :
    ∀ (n i : Nat) (uses : Bool) (acc : List Palette) (uses' : Bool) (pals : List Palette),
      localPalettesLoop frameGlobal n i uses acc = .ok (uses', pals) →
      ∃ new, pals = acc ++ new ∧ new.length = n ∧
        uses' = (uses || new.any (fun palette => palette.usesTransparency)) ∧
        ∀ p ∈ new, p.indexSize = p.colors.length + (if p.usesTransparency then 1 else 0) ∧
          p.indexSize ≤ 256 := by
  intro n
  induction n with
  | zero =>
    intro i uses acc uses' pals h
    simp only [localPalettesLoop, Except.ok.injEq, Prod.mk.injEq] at h
    exact ⟨[], by simp [h.2], rfl, by simp [h.1], by simp⟩
  | succ n ih =>
    intro i uses acc uses' pals h
    unfold localPalettesLoop at h
    cases frameGlobal with
    | none => simp at h
    | some frame =>
      simp only at h
      cases hf : frame[i]? with
      | none => simp [hf] at h
      | some frameI =>
        simp only [hf] at h
        cases hut : frameI.makePalette.usesTransparency with
        | false =>
          simp only [hut, Bool.false_eq_true, if_false] at h
          by_cases hsz : frameI.makePalette.colors.length > 256
          · simp [hsz] at h
          · simp only [hsz, if_false] at h
            obtain ⟨new, hp, hlen, hu, hall⟩ := ih _ _ _ _ _ h
            refine ⟨_ :: new, by simpa using hp, by simp [hlen], ?_, ?_⟩
            · rw [hu]; simp
            · intro p hp'
              rcases List.mem_cons.1 hp' with rfl | hp'
              · simp; omega
              · exact hall p hp'
        | true =>
          simp only [hut, if_true] at h
          by_cases hsz : frameI.makePalette.colors.length + 1 > 256
          · simp [hsz] at h
          · simp only [hsz, if_false] at h
            obtain ⟨new, hp, hlen, hu, hall⟩ := ih _ _ _ _ _ h
            refine ⟨_ :: new, by simpa using hp, by simp [hlen], ?_, ?_⟩
            · rw [hu]; simp
            · intro p hp'
              rcases List.mem_cons.1 hp' with rfl | hp'
              · simp; omega
              · exact hall p hp'

theorem collectLocalPalettes_spec (frameGlobal : Option (List GifFrame))
    (frames : List GifFrame) (uses : Bool) (pals : List Palette)
    (h : collectLocalPalettes frameGlobal frames = .ok (uses, pals)) :
    pals.length = frames.length ∧
      uses = pals.any (fun palette => palette.usesTransparency) ∧
      ∀ p ∈ pals, p.indexSize = p.colors.length + (if p.usesTransparency then 1 else 0) ∧
        p.indexSize ≤ 256 := by
  obtain ⟨new, hp, hlen, hu, hall⟩ := localPalettesLoop_spec frameGlobal _ _ _ _ _ _ h
  simp only [List.nil_append] at hp
  subst hp
  exact ⟨hlen, by simpa using hu, hall⟩


theorem encodeGifChoice_of_collect (frameGlobal : Option (List GifFrame))
    (frames : List GifFrame) (spec : GifSpec) (uses : Bool) (pals : List Palette)
    (hcollect : collectLocalPalettes frameGlobal frames = .ok (uses, pals)) :
    encodeGifChoice frameGlobal frames spec =
      (checkTransparency spec uses >>= fun _ =>
        _getSizeEstimateLocal pals frames >>= fun localSizeEst =>
          if spec.optimization = .speed then
            pure (.encodeLocal localSizeEst pals (encodeLoopCount spec.loops))
          else if globalIndexSize uses pals > 256 then
            pure (.encodeLocal localSizeEst pals (encodeLoopCount spec.loops))
          else
            _getSizeEstimateGlobal (makeGlobalPalette uses pals) frames >>= fun globalSizeEst =>
              if spec.optimization = .both then
                pure (chooseByEstimate globalSizeEst localSizeEst (makeGlobalPalette uses pals)
                  pals (encodeLoopCount spec.loops))
              else
                pure (.encodeBoth globalSizeEst (makeGlobalPalette uses pals) localSizeEst pals
                  (encodeLoopCount spec.loops))) := by
  unfold encodeGifChoice
  rw [hcollect]
  simp only [bind, Except.bind, pure, Except.pure]

/-- C1 at failing inputs, in the mode `OptimizeBoth` and in a host whose global
`frame` is the frame list.  For one 3x3 frame with one black opaque pixel the
global palette has index size 2 and bit width 1, the local estimate is 65, and
the global estimate as the claim counts it, `34 + 3*2 + (22 + 2 + 1)`, is 65
as well: a tie, which the claim gives to the shared table.
`_getSizeEstimateGlobal` returns `NaN`, the comparison `NaN <= 65` is false,
and `_encodeGif` calls `_encodeLocal`.  For two such frames the local estimate
is 96 and the global estimate as the claim counts it is `34 + 3*2 + 2*25 = 90`;
`_encodeGif` calls `_encodeLocal` there too, with the estimate 96, which is
greater than 90. -/
theorem both_mode_ignores_global_estimate :
    (collectLocalPalettes (some [blackDotFrame 4]) [blackDotFrame 4] =
        .ok (true, [⟨[0], true, 2⟩]) ∧
      makeGlobalPalette true [⟨[0], true, 2⟩] = ⟨[0], true, 2⟩ ∧
      _getPixelBitWidth ⟨[0], true, 2⟩ = .ok 1 ∧
      _getSizeEstimateLocal [⟨[0], true, 2⟩] [blackDotFrame 4] = .ok (.num 65) ∧
      PER_GIF_OVERHEAD + 3 * 2 + specFrameBytes (blackDotFrame 4) 1 0 = 65 ∧
      JSNum.le (.num 65) (.num 65) = true ∧
      _getSizeEstimateGlobal ⟨[0], true, 2⟩ [blackDotFrame 4] = .ok .nan ∧
      JSNum.le .nan (.num 65) = false ∧
      encodeGifChoice (some [blackDotFrame 4]) [blackDotFrame 4] (sampleSpec .both 0) =
        .ok (.encodeLocal (.num 65) [⟨[0], true, 2⟩] (some 0))) ∧
    (collectLocalPalettes (some [blackDotFrame 0, blackDotFrame 8])
          [blackDotFrame 0, blackDotFrame 8] =
        .ok (true, [⟨[0], true, 2⟩, ⟨[0], true, 2⟩]) ∧
      makeGlobalPalette true [⟨[0], true, 2⟩, ⟨[0], true, 2⟩] = ⟨[0], true, 2⟩ ∧
      _getSizeEstimateLocal [⟨[0], true, 2⟩, ⟨[0], true, 2⟩]
          [blackDotFrame 0, blackDotFrame 8] = .ok (.num 96) ∧
      PER_GIF_OVERHEAD + 3 * 2 + (specFrameBytes (blackDotFrame 0) 1 0 +
        specFrameBytes (blackDotFrame 8) 1 0) = 90 ∧
      JSNum.le (.num 90) (.num 96) = true ∧
      JSNum.gt (.num 96) (.num 90) = true ∧
      _getSizeEstimateGlobal ⟨[0], true, 2⟩ [blackDotFrame 0, blackDotFrame 8] = .ok .nan ∧
      encodeGifChoice (some [blackDotFrame 0, blackDotFrame 8])
          [blackDotFrame 0, blackDotFrame 8] (sampleSpec .both 0) =
        .ok (.encodeLocal (.num 96) [⟨[0], true, 2⟩, ⟨[0], true, 2⟩] (some 0))) := by
  have h25 : ∀ frame : GifFrame,
      _getFrameSizeEst frame (.palette ⟨[], false, 0⟩) 1 = .num 25 →
        specFrameBytes frame 1 0 = 25 := by
    intro frame h
    rw [getFrameSizeEst_palette] at h
    exact JSNum.num.inj h
  refine ⟨⟨rfl, rfl, rfl, rfl, ?_, rfl, rfl, rfl, rfl⟩, ⟨rfl, rfl, rfl, ?_, rfl, rfl, rfl, rfl⟩⟩
  · rw [h25 (blackDotFrame 4) rfl]
    rfl
  · rw [h25 (blackDotFrame 0) rfl, h25 (blackDotFrame 8) rfl]
    rfl

/-- C2: when the number of distinct colours in the union of the per-frame
palettes, plus one if a frame uses transparency, exceeds 256, then in each of
the three optimization modes `_encodeGif` checks the transparency assertion,
computes the local estimate and calls `_encodeLocal` with the per-frame
palettes; `_encodeGlobal` is not called. -/
theorem encodeGif_local_when_union_exceeds {W : Type} (host : Host W)
    (frames : List GifFrame) (spec : GifSpec) (optimization : Optimization) (uses : Bool)
    (pals : List Palette)
    (hcollect : collectLocalPalettes host.frame frames = .ok (uses, pals))
    (hunion : 256 < distinctColors pals +
      (if pals.any (fun palette => palette.usesTransparency) then 1 else 0)) :
    encodeGifChoice host.frame frames { spec with optimization := optimization } =
        (checkTransparency spec uses >>= fun _ =>
          _getSizeEstimateLocal pals frames >>= fun localSizeEst =>
            pure (.encodeLocal localSizeEst pals (encodeLoopCount spec.loops))) ∧
      _encodeGif host frames { spec with optimization := optimization } =
        (checkTransparency spec uses >>= fun _ =>
          _getSizeEstimateLocal pals frames >>= fun localSizeEst =>
            _encodeLocal host frames { spec with optimization := optimization } localSizeEst
              pals (encodeLoopCount spec.loops)) := by
  have huses := (collectLocalPalettes_spec _ _ _ _ hcollect).2.1
  have hg : globalIndexSize uses pals > 256 := by
    unfold globalIndexSize
    rw [globalPaletteTree_length, huses]
    split <;> simp_all
  have hchoice : encodeGifChoice host.frame frames { spec with optimization := optimization } =
      (checkTransparency spec uses >>= fun _ =>
        _getSizeEstimateLocal pals frames >>= fun localSizeEst =>
          pure (.encodeLocal localSizeEst pals (encodeLoopCount spec.loops))) := by
    rw [encodeGifChoice_of_collect _ _ _ _ _ hcollect]
    have hck : checkTransparency { spec with optimization := optimization } uses =
        checkTransparency spec uses := rfl
    rw [hck]
    simp only [hg, if_true, ite_self]
  refine ⟨hchoice, ?_⟩
  unfold _encodeGif
  rw [hchoice]
  simp only [bind, Except.bind, pure, Except.pure]
  cases checkTransparency spec uses with
  | error e => rfl
  | ok u =>
    simp only
    cases _getSizeEstimateLocal pals frames with
    | error e => rfl
    | ok le => rfl


set_option maxRecDepth 100000 in
/-- Witness of C2: a frame with 256 colours and a fully transparent frame, in
size mode, in a host whose global `frame` is that frame list. -/
theorem encodeGif_local_when_union_exceeds_witness :
    encodeGifChoice (sampleHost fullPaletteFrames).frame fullPaletteFrames
        { sampleSpec .both 0 with optimization := .size } =
      .ok (.encodeLocal (.num 1109) [⟨List.range 256, false, 256⟩, ⟨[], true, 1⟩] (some 0)) :=
  (encodeGif_local_when_union_exceeds (sampleHost fullPaletteFrames) fullPaletteFrames
    (sampleSpec .both 0) .size true [⟨List.range 256, false, 256⟩, ⟨[], true, 1⟩] rfl
    (by decide)).1

theorem getPixelBitWidth_zero (palette : Palette) (h : palette.indexSize = 0) :
    _getPixelBitWidth palette = .error .diverges := by
  unfold _getPixelBitWidth
  rw [h]
  rfl

/-- With at least one frame and a global palette of at most 256 indexes, the
global estimate is `NaN` or is never returned. -/
theorem getSizeEstimateGlobal_cons (globalPalette : Palette) (frame : GifFrame)
    (rest : List GifFrame) (h2 : globalPalette.indexSize ≤ 256) :
    _getSizeEstimateGlobal globalPalette (frame :: rest) = .ok .nan ∨
      _getSizeEstimateGlobal globalPalette (frame :: rest) = .error .diverges := by
  by_cases h0 : globalPalette.indexSize = 0
  · right
    simp [_getSizeEstimateGlobal, getPixelBitWidth_zero globalPalette h0, bind, Except.bind]
  · left
    exact getSizeEstimateGlobal_nan globalPalette frame rest (by omega) h2

/-- In the mode `OptimizeBoth`, whatever the frames, `_encodeGif` never gets
to call `_encodeGlobal`: an encoder call that it reaches is `_encodeLocal`. -/
theorem encodeGifChoice_both_is_local (frameGlobal : Option (List GifFrame))
    (frames : List GifFrame) (spec : GifSpec) (encoding : Encoding)
    (hopt : spec.optimization = .both)
    (h : encodeGifChoice frameGlobal frames spec = .ok encoding) :
    ∃ localSizeEst localPalettes,
      encoding = .encodeLocal localSizeEst localPalettes (encodeLoopCount spec.loops) := by
  cases hcollect : collectLocalPalettes frameGlobal frames with
  | error e => simp [encodeGifChoice, hcollect, bind, Except.bind] at h
  | ok r =>
    obtain ⟨uses, pals⟩ := r
    rw [encodeGifChoice_of_collect _ _ _ _ _ hcollect] at h
    simp only [bind, Except.bind, pure, Except.pure, hopt] at h
    cases hck : checkTransparency spec uses with
    | error e => simp [hck] at h
    | ok u =>
      simp only [hck] at h
      cases hle : _getSizeEstimateLocal pals frames with
      | error e => simp [hle] at h
      | ok le =>
        simp only [hle] at h
        by_cases hg : globalIndexSize uses pals > 256
        · simp [hg] at h
          exact ⟨le, pals, h.symm⟩
        · simp only [hg, if_false] at h
          cases frames with
          | nil =>
            have hlen := (collectLocalPalettes_spec _ _ _ _ hcollect).1
            have huses := (collectLocalPalettes_spec _ _ _ _ hcollect).2.1
            have hp : pals = [] := List.length_eq_zero.1 (by simpa using hlen)
            subst hp
            have hu : uses = false := by simpa using huses
            subst hu
            simp [_getSizeEstimateGlobal, getPixelBitWidth_zero, makeGlobalPalette,
              globalIndexSize, globalPaletteTree, bind, Except.bind] at h
          | cons frame rest =>
            rcases getSizeEstimateGlobal_cons (makeGlobalPalette uses pals) frame rest
              (by simp only [makeGlobalPalette]; omega) with hge | hge
            · simp [hge, chooseByEstimate, JSNum.le] at h
              exact ⟨le, pals, h.symm⟩
            · simp [hge] at h

/-- C3 at the spec's example, three 3x3 frames with one black pixel each, in a
host whose global `frame` is that frame list: the per-frame palettes are
black plus transparency, the global palette is the same, the local estimate is
127 and the global estimate is `NaN`, so the comparison `globalSizeEst <=
localSizeEst` is false and the mode `OptimizeBoth` calls `_encodeLocal`.  With
frame terms that count no table (24 + 1 = 25 bytes each, as for a palette
object of index size 0) the global estimate would be `34 + 6 + 75 = 115`. -/
theorem blackDotFrames_both_encodes_local :
    collectLocalPalettes (some blackDotFrames) blackDotFrames =
        .ok (true, [⟨[0], true, 2⟩, ⟨[0], true, 2⟩, ⟨[0], true, 2⟩]) ∧
      makeGlobalPalette true [⟨[0], true, 2⟩, ⟨[0], true, 2⟩, ⟨[0], true, 2⟩] =
        ⟨[0], true, 2⟩ ∧
      _getSizeEstimateLocal [⟨[0], true, 2⟩, ⟨[0], true, 2⟩, ⟨[0], true, 2⟩] blackDotFrames =
        .ok (.num 127) ∧
      _getSizeEstimateGlobal ⟨[0], true, 2⟩ blackDotFrames = .ok .nan ∧
      JSNum.le .nan (.num 127) = false ∧
      encodeGifChoice (some blackDotFrames) blackDotFrames (sampleSpec .both 0) =
        .ok (.encodeLocal (.num 127)
          [⟨[0], true, 2⟩, ⟨[0], true, 2⟩, ⟨[0], true, 2⟩] (some 0)) ∧
      blackDotFrames.map (fun frame => _getFrameSizeEst frame (.palette ⟨[], false, 0⟩) 1) =
        [.num 25, .num 25, .num 25] :=
  ⟨rfl, rfl, rfl, rfl, rfl, rfl, rfl⟩

/-- C9 at a failing input: for the spec's three 3x3 frames and their global
palette of index size 2 the claim's value is `34 + 3*2 + 3*(22 + 2 + 1) = 115`,
and `_getSizeEstimateGlobal` returns `NaN`, because each frame term is computed
as `3*palette.indexSize` with the number `0` as the palette. -/
theorem getSizeEstimateGlobal_blackDotFrames_nan :
    _getSizeEstimateGlobal ⟨[0], true, 2⟩ blackDotFrames = .ok .nan ∧
      blackDotFrames.map (fun frame => _getFrameSizeEst frame (.number 0) 1) =
        [.nan, .nan, .nan] ∧
      34 + 3 * 2 + (blackDotFrames.map (fun frame =>
        22 + mathCeilDiv (frame.bitmap.width * frame.bitmap.height * 1) 8 +
          mathCeilDiv (mathCeilDiv (frame.bitmap.width * frame.bitmap.height * 1) 8) 255)).sum
        = 115 :=
  ⟨rfl, rfl, rfl⟩

/-! ## The indexed image -/

theorem colorLookupLinearLoop_of_mem (color : Nat) : ∀ (colors : List Nat) (i : Nat),
    color ∈ colors →
      ∃ p, colorLookupLinearLoop color colors i = some (i + p) ∧ colors[p]? = some color := by
  intro colors
  induction colors with
  | nil => intro i h; simp at h
  | cons c rest ih =>
    intro i h
    unfold colorLookupLinearLoop
    by_cases hc : c = color
    · exact ⟨0, by simp [hc], by simp [hc]⟩
    · have hrest : color ∈ rest := by
        rcases List.mem_cons.1 h with h | h
        · exact absurd h.symm hc
        · exact h
      obtain ⟨p, hp, hget⟩ := ih (i + 1) hrest
      exact ⟨p + 1, by simp [hc, hp]; omega, by simpa using hget⟩

theorem sorted_getElem?_lt {colors : List Nat} (hs : colors.Sorted (· < ·)) {p q a b : Nat}
    (hp : colors[p]? = some a) (hq : colors[q]? = some b) (hpq : p < q) : a < b := by
  obtain ⟨hpl, rfl⟩ := List.getElem?_eq_some.1 hp
  obtain ⟨hql, rfl⟩ := List.getElem?_eq_some.1 hq
  exact (List.pairwise_iff_getElem.1 hs) p q hpl hql hpq

theorem colorLookupBinaryLoop_of_getElem (colors : List Nat) (color : Nat)
    (hs : colors.Sorted (· < ·)) (p : Nat) (hp : colors[p]? = some color) :
    ∀ (fuel : Nat) (lo hi : Int), 0 ≤ lo → lo ≤ p → (p : Int) ≤ hi → hi < colors.length →
      hi + 1 - lo ≤ fuel → colorLookupBinaryLoop colors color fuel lo hi = some (p : Int) := by
  intro fuel
  induction fuel with
  | zero => intro lo hi _ h1 h2 _ hf; omega
  | succ fuel ih =>
    intro lo hi h0 h1 h2 h3 hf
    unfold colorLookupBinaryLoop
    have hlohi : lo ≤ hi := le_trans h1 h2
    have hmid0 : 0 ≤ (lo + hi) / 2 := by omega
    have hmidlt : ((lo + hi) / 2).toNat < colors.length := by omega
    simp only [hlohi, if_true, hmid0, List.getElem?_eq_getElem hmidlt]
    have hget : colors[((lo + hi) / 2).toNat]? = some colors[((lo + hi) / 2).toNat] :=
      List.getElem?_eq_getElem hmidlt
    generalize colors[((lo + hi) / 2).toNat] = c at hget ⊢
    by_cases hgt : c > color
    · simp only [hgt, if_true]
      have hlt : p < ((lo + hi) / 2).toNat := by
        by_contra hnot
        rcases Nat.lt_or_ge ((lo + hi) / 2).toNat p with h | h
        · have := sorted_getElem?_lt hs hget hp h
          omega
        · have heq : ((lo + hi) / 2).toNat = p := by omega
          have hc : colors[((lo + hi) / 2).toNat]? = some color := by rw [heq]; exact hp
          rw [hget] at hc
          simp only [Option.some.injEq] at hc
          omega
      exact ih lo _ h0 h1 (by omega) (by omega) (by omega)
    · by_cases hlt' : c < color
      · simp only [hgt, hlt', if_true, if_false]
        have hlt : ((lo + hi) / 2).toNat < p := by
          by_contra hnot
          rcases Nat.lt_or_ge p ((lo + hi) / 2).toNat with h | h
          · have := sorted_getElem?_lt hs hp hget h
            omega
          · have heq : ((lo + hi) / 2).toNat = p := by omega
            have hc : colors[((lo + hi) / 2).toNat]? = some color := by rw [heq]; exact hp
            rw [hget] at hc
            simp only [Option.some.injEq] at hc
            omega
        exact ih _ hi (by omega) (by omega) h2 h3 (by omega)
      · simp only [hgt, hlt', if_false]
        have heq : ((lo + hi) / 2).toNat = p := by
          rcases Nat.lt_trichotomy ((lo + hi) / 2).toNat p with h | h | h
          · have := sorted_getElem?_lt hs hget hp h
            omega
          · exact h
          · have := sorted_getElem?_lt hs hp hget h
            omega
        congr 1
        omega

theorem colorLookupBinary_of_getElem (colors : List Nat) (color : Nat)
    (hs : colors.Sorted (· < ·)) (p : Nat) (hp : colors[p]? = some color) :
    _colorLookupBinary colors color = some p := by
  have hpl : p < colors.length := (List.getElem?_eq_some.1 hp).1
  unfold _colorLookupBinary
  rw [colorLookupBinaryLoop_of_getElem colors color hs p hp colors.length 0 _ (le_refl _)
    (by omega) (by omega) (by omega) (by omega)]
  simp

/-- Both lookups find the position of a colour that is in a strictly
ascending list. -/
theorem colorLookup_of_mem (colors : List Nat) (color : Nat) (hs : colors.Sorted (· < ·))
    (hmem : color ∈ colors) :
    ∃ p, colors[p]? = some color ∧ _colorLookupLinear colors color = some p ∧
      _colorLookupBinary colors color = some p := by
  obtain ⟨p, hp, hget⟩ := colorLookupLinearLoop_of_mem color colors 0 hmem
  exact ⟨p, hget, by simpa [_colorLookupLinear] using hp,
    colorLookupBinary_of_getElem colors color hs p hget⟩

theorem length_bufferSet (buffer : List Nat) (k v : Nat) :
    (bufferSet buffer k v).length = buffer.length := by
  simp [bufferSet]

theorem length_indexedImageLoop (f : List Nat → Nat → Option Nat) (colors data : List Nat)
    (tI : Nat) : ∀ (fuel i j : Nat) (buf : List Nat),
      (indexedImageLoop f colors data tI fuel i j buf).length = buf.length := by
  intro fuel
  induction fuel with
  | zero => intro i j buf; rfl
  | succ fuel ih =>
    intro i j buf
    unfold indexedImageLoop
    by_cases hi : i < data.length
    · simp only [hi, if_true]
      rw [ih]
      split <;> exact length_bufferSet _ _ _
    · simp [hi]

/-- The iterations from pixel `j` on leave the entries before `j` as they
are. -/
theorem indexedImageLoop_before (f : List Nat → Nat → Option Nat) (colors data : List Nat)
    (tI : Nat) : ∀ (fuel j : Nat) (buf : List Nat) (k : Nat), k < j →
      (indexedImageLoop f colors data tI fuel (4 * j) j buf)[k]? = buf[k]? := by
  intro fuel
  induction fuel with
  | zero => intro j buf k _; rfl
  | succ fuel ih =>
    intro j buf k hk
    unfold indexedImageLoop
    by_cases hi : 4 * j < data.length
    · simp only [hi, if_true]
      have h4 : 4 * j + 4 = 4 * (j + 1) := by ring
      rw [h4, ih (j + 1) _ k (by omega)]
      split
      · exact List.getElem?_set_ne (by omega)
      · exact List.getElem?_set_ne (by omega)
    · simp [hi]

/-- The entry of an opaque pixel `k` at or after `j` is the byte of its
looked-up index. -/
theorem indexedImageLoop_opaque (f : List Nat → Nat → Option Nat) (colors data : List Nat)
    (tI : Nat) (k : Nat) (hk : data[4 * k + 3]? = some 255) :
    ∀ (fuel j : Nat) (buf : List Nat), j ≤ k → k < fuel + j → k < buf.length →
      (indexedImageLoop f colors data tI fuel (4 * j) j buf)[k]? =
        some ((f colors (bufferGet data (4 * k) * 2 ^ 16 + bufferGet data (4 * k + 1) * 2 ^ 8 +
          bufferGet data (4 * k + 2))).getD 0 % 256) := by
  have hklen : 4 * k + 3 < data.length := (List.getElem?_eq_some.1 hk).1
  intro fuel
  induction fuel with
  | zero => intro j buf h1 h2 _; omega
  | succ fuel ih =>
    intro j buf hjk hfuel hbuf
    unfold indexedImageLoop
    have hi : 4 * j < data.length := by omega
    have h4 : 4 * j + 4 = 4 * (j + 1) := by ring
    simp only [hi, if_true]
    rw [h4]
    by_cases hjeq : j = k
    · subst hjeq
      rw [indexedImageLoop_before f colors data tI fuel (j + 1) _ j (by omega)]
      simp only [hk, if_true, bufferSet]
      rw [List.getElem?_set_self hbuf]
    · apply ih (j + 1) _ (by omega) (by omega)
      split <;> rw [length_bufferSet] <;> exact hbuf


/-- C4, as amended: for every frame of `4*width*height` bytes and every
palette that uses transparency, has fewer than 256 colours, and whose colour
list is strictly ascending and contains the RGB value of every fully opaque
pixel, `_getIndexedImage` returns an index buffer with one entry per pixel,
in which the entry of each fully opaque pixel is the position of the pixel's
RGB value in the colour list, wherever the other pixels are. -/
theorem getIndexedImage_opaque_entries (frameIndex : Nat) (frame : GifFrame)
    (palette : Palette) (huses : palette.usesTransparency = true)
    (hcount : palette.colors.length < 256) (hsorted : palette.colors.Sorted (· < ·))
    (hdata : frame.bitmap.data.length = 4 * (frame.bitmap.width * frame.bitmap.height))
    (hmem : ∀ k, frame.bitmap.data[4 * k + 3]? = some 255 →
      pixelColor frame.bitmap.data k ∈ palette.colors) :
    ∃ image, _getIndexedImage frameIndex frame palette = .ok image ∧
      image.buffer.length = frame.bitmap.width * frame.bitmap.height ∧
      ∀ k, frame.bitmap.data[4 * k + 3]? = some 255 →
        ∃ p, image.buffer[k]? = some p ∧
          palette.colors[p]? = some (pixelColor frame.bitmap.data k) := by
  have hne : palette.colors.length ≠ 256 := by omega
  refine ⟨_, by simp only [_getIndexedImage, huses, hne, if_true, if_false]; rfl, ?_, ?_⟩
  · simp only [length_indexedImageLoop, newBuffer, List.length_replicate, hdata]
    omega
  · intro k hk
    have hklen : 4 * k + 3 < frame.bitmap.data.length := (List.getElem?_eq_some.1 hk).1
    obtain ⟨p, hget, hlin, hbin⟩ := colorLookup_of_mem palette.colors _ hsorted (hmem k hk)
    have hpl : p < palette.colors.length := (List.getElem?_eq_some.1 hget).1
    refine ⟨p, ?_, hget⟩
    have h := indexedImageLoop_opaque
      (if palette.colors.length ≤ 5 then _colorLookupLinear else _colorLookupBinary)
      palette.colors frame.bitmap.data palette.colors.length k hk frame.bitmap.data.length 0
      (newBuffer (frame.bitmap.data.length / 4)) (Nat.zero_le _) (by omega)
      (by simp only [newBuffer, List.length_replicate]; omega)
    simp only [Nat.mul_zero] at h
    rw [h]
    have hval : ((if palette.colors.length ≤ 5 then _colorLookupLinear else _colorLookupBinary)
        palette.colors (pixelColor frame.bitmap.data k)) = some p := by
      split
      · exact hlin
      · exact hbin
    unfold pixelColor at hval
    rw [hval]
    simp only [Option.getD_some, Option.some.injEq]
    omega

/-- Witness of C4 as amended, at the spec's frame with a black pixel in the
middle and the palette black plus transparency. -/
theorem getIndexedImage_opaque_entries_witness :
    ∃ image, _getIndexedImage 1 (blackDotFrame 4) ⟨[0], true, 2⟩ = .ok image ∧
      image.buffer.length = (blackDotFrame 4).bitmap.width * (blackDotFrame 4).bitmap.height ∧
      ∀ k, (blackDotFrame 4).bitmap.data[4 * k + 3]? = some 255 →
        ∃ p, image.buffer[k]? = some p ∧
          (⟨[0], true, 2⟩ : Palette).colors[p]? =
            some (pixelColor (blackDotFrame 4).bitmap.data k) :=
  getIndexedImage_opaque_entries 1 (blackDotFrame 4) ⟨[0], true, 2⟩ rfl (by decide)
    (by simp) rfl
    (by
      intro k hk
      have hlt : 4 * k + 3 < 36 := (List.getElem?_eq_some.1 hk).1
      have hk9 : k < 9 := by omega
      interval_cases k <;> first | (exact absurd hk (by decide)) | decide)

/-- C4 as stated fails at a palette of the 256 colours `0..255` that uses
transparency: the colour list is strictly ascending and contains the colour of
the one opaque pixel, and `_getIndexedImage` returns no index buffer, it
throws the error of its guard `transparentIndex === 256`. -/
theorem getIndexedImage_full_palette_throws :
    (List.range 256).Sorted (· < ·) ∧
      (sampleFrame 1 1 [0, 0, 7, 255] ⟨List.range 256, true, 257⟩).bitmap.data[4 * 0 + 3]? =
        some 255 ∧
      pixelColor [0, 0, 7, 255] 0 ∈ List.range 256 ∧
      _getIndexedImage 0 (sampleFrame 1 1 [0, 0, 7, 255] ⟨List.range 256, true, 257⟩)
        ⟨List.range 256, true, 257⟩ =
        .error (.gifError "Frame 0 already has 256 colorsand so can't use transparency") ∧
      ¬ ∃ image, _getIndexedImage 0
        (sampleFrame 1 1 [0, 0, 7, 255] ⟨List.range 256, true, 257⟩)
        ⟨List.range 256, true, 257⟩ = .ok image := by
  have hthrow : _getIndexedImage 0
      (sampleFrame 1 1 [0, 0, 7, 255] ⟨List.range 256, true, 257⟩)
      ⟨List.range 256, true, 257⟩ =
      .error (.gifError "Frame 0 already has 256 colorsand so can't use transparency") := by
    simp [_getIndexedImage]
    rfl
  refine ⟨List.pairwise_lt_range 256, rfl, by decide, hthrow, ?_⟩
  rintro ⟨image, h⟩
  rw [hthrow] at h
  cases h

/-- A palette without transparency makes `_getIndexedImage` throw the
`TypeError` of the assignment to its constant `transparentIndex`. -/
theorem getIndexedImage_without_transparency (frameIndex : Nat) (frame : GifFrame)
    (palette : Palette) (h : palette.usesTransparency = false) :
    _getIndexedImage frameIndex frame palette =
      .error (.typeError "Assignment to constant variable.") := by
  simp [_getIndexedImage, h]

/-- C6 at a failing input: the 1x1 red opaque frame with the palette
`[0xFF0000]` without transparency, which contains the frame's colour.
`_getIndexedImage` does not return the index buffer `[0]` with a `null`
transparent index: it throws a `TypeError`. -/
theorem getIndexedImage_opaque_palette_throws :
    pixelColor [255, 0, 0, 255] 0 ∈ [0xFF0000] ∧
      _getIndexedImage 0 (sampleFrame 1 1 [255, 0, 0, 255] ⟨[0xFF0000], false, 1⟩)
        ⟨[0xFF0000], false, 1⟩ = .error (.typeError "Assignment to constant variable.") ∧
      indexedImageLoop _colorLookupLinear [0xFF0000] [255, 0, 0, 255] 1 4 0 0 (newBuffer 1) =
        [0] :=
  ⟨by decide, rfl, rfl⟩

/-- C5 at a failing input: the spec's 3x3 frame with a black pixel in the
middle and the palette black plus transparency (one colour, transparent
index 1).  The transparent pixels 1, 2, 3, 5, 6 and 7 do not get the
transparent index: their entries stay 0, because the transparent branch
writes `indexBuffer[i]` with the byte offset `i = 4*j` of the pixel. -/
theorem getIndexedImage_blackDot_transparent_entries :
    _getIndexedImage 1 (blackDotFrame 4) ⟨[0], true, 2⟩ =
        .ok { buffer := [1, 0, 0, 0, 0, 0, 0, 0, 1], transparentIndex := some 1 } ∧
      (blackDotFrame 4).bitmap.data[4 * 1 + 3]? = some 0 ∧
      ([1, 0, 0, 0, 0, 0, 0, 0, 1] : List Nat)[1]? = some 0 :=
  ⟨rfl, rfl, rfl⟩

/-! ## The global palette: theorems -/

/-- C11: for per-frame palettes whose union, with the transparency slot, has
at most 256 entries, the colour list of the global palette that `_encodeGif`
builds is strictly ascending (sorted, without duplicates) and contains exactly
the colours that occur in at least one per-frame palette, the colour
`0x000000` included; its index size is the size of the union.  In size mode
this palette is the one that `_encodeGif` hands to `_encodeGlobal`. -/
theorem globalPalette_sorted_union (pals : List Palette)
    (hcap : distinctColors pals +
      (if pals.any (fun palette => palette.usesTransparency) then 1 else 0) ≤ 256) :
    (makeGlobalPalette (pals.any (fun palette => palette.usesTransparency)) pals).colors.Sorted
        (· < ·) ∧
      (makeGlobalPalette (pals.any (fun palette => palette.usesTransparency)) pals).colors.Nodup ∧
      (∀ color,
        color ∈ (makeGlobalPalette (pals.any (fun palette => palette.usesTransparency))
          pals).colors ↔ ∃ palette ∈ pals, color ∈ palette.colors) ∧
      (makeGlobalPalette (pals.any (fun palette => palette.usesTransparency)) pals).indexSize =
        distinctColors pals +
          (if pals.any (fun palette => palette.usesTransparency) then 1 else 0) ∧
      (makeGlobalPalette (pals.any (fun palette => palette.usesTransparency)) pals).indexSize
        ≤ 256 ∧
      ∀ (frameGlobal : Option (List GifFrame)) (frames : List GifFrame) (spec : GifSpec)
        (encoding : Encoding),
        collectLocalPalettes frameGlobal frames =
          .ok (pals.any (fun palette => palette.usesTransparency), pals) →
        spec.optimization = .size →
        encodeGifChoice frameGlobal frames spec = .ok encoding →
        ∃ globalSizeEst localSizeEst,
          encoding = .encodeBoth globalSizeEst
            (makeGlobalPalette (pals.any (fun palette => palette.usesTransparency)) pals)
            localSizeEst pals (encodeLoopCount spec.loops) := by
  obtain ⟨hs, hm⟩ := globalPaletteTree_spec pals
  have hsize : globalIndexSize (pals.any (fun palette => palette.usesTransparency)) pals =
      distinctColors pals +
        (if pals.any (fun palette => palette.usesTransparency) then 1 else 0) := by
    unfold globalIndexSize
    rw [globalPaletteTree_length]
    split <;> simp_all
  refine ⟨hs, hs.nodup, ?_, hsize, by simp only [makeGlobalPalette]; omega, ?_⟩
  · intro color
    simp only [makeGlobalPalette]
    rw [hm, List.mem_flatMap]
  · intro frameGlobal frames spec encoding hcollect hopt h
    rw [encodeGifChoice_of_collect _ _ _ _ _ hcollect] at h
    have hg : ¬ globalIndexSize (pals.any (fun palette => palette.usesTransparency)) pals
        > 256 := by omega
    simp only [bind, Except.bind, pure, Except.pure, hopt, hg, if_false] at h
    cases hck : checkTransparency spec (pals.any (fun palette => palette.usesTransparency)) with
    | error e => simp [hck] at h
    | ok u =>
      simp only [hck] at h
      cases hle : _getSizeEstimateLocal pals frames with
      | error e => simp [hle] at h
      | ok le =>
        simp only [hle] at h
        cases hge : _getSizeEstimateGlobal
          (makeGlobalPalette (pals.any (fun palette => palette.usesTransparency)) pals)
          frames with
        | error e => simp [hge] at h
        | ok ge =>
          simp [hge] at h
          exact ⟨ge, le, h.symm⟩

/-- Witness of C11: the palettes `[0, 5, 7]`, `[0, 3, 7, 9]` with transparency
and `[0, 1]` give the colour list `[0, 1, 3, 5, 7, 9]`. -/
theorem globalPalette_sorted_union_witness :
    (makeGlobalPalette true
        [⟨[0, 5, 7], false, 3⟩, ⟨[0, 3, 7, 9], true, 5⟩, ⟨[0, 1], false, 2⟩]).colors =
      [0, 1, 3, 5, 7, 9] ∧
    (makeGlobalPalette true
        [⟨[0, 5, 7], false, 3⟩, ⟨[0, 3, 7, 9], true, 5⟩, ⟨[0, 1], false, 2⟩]).colors.Sorted
      (· < ·) :=
  ⟨rfl, (globalPalette_sorted_union
    [⟨[0, 5, 7], false, 3⟩, ⟨[0, 3, 7, 9], true, 5⟩, ⟨[0, 1], false, 2⟩] (by decide)).1⟩

/-! ## Padding the palette -/

theorem toInt32_pow_two (k : Nat) (hk : k ≤ 29) :
    toInt32 ((2 : Int) ^ k * 2) = (2 : Int) ^ (k + 1) := by
  have h1 : (2 : Int) ^ k * 2 = (((2 : Nat) ^ (k + 1) : Nat) : Int) := by
    push_cast; ring
  have h2 : (2 : Nat) ^ (k + 1) < 2 ^ 31 :=
    Nat.pow_lt_pow_right (by decide : 1 < 2) (show k + 1 < 31 by omega)
  rw [h1, toInt32_of_lt _ h2]
  push_cast; ring

theorem powerOf2Loop_spec (colorCount : Nat) (hcount : colorCount ≤ 2 ^ 30) :
    ∀ (d k fuel : Nat), k + d = 30 → 1 ≤ k → d < fuel →
      (k = 1 ∨ 2 ^ (k - 1) < colorCount) →
      ∃ e, k ≤ e ∧ e ≤ 30 ∧ powerOf2Loop colorCount fuel ((2 : Int) ^ k) = some ((2 : Int) ^ e) ∧
        colorCount ≤ 2 ^ e ∧ (e = 1 ∨ 2 ^ (e - 1) < colorCount) := by
  intro d
  induction d with
  | zero =>
    intro k fuel hk h1 hf hmin
    obtain ⟨f, rfl⟩ : ∃ f, fuel = f + 1 := ⟨fuel - 1, by omega⟩
    have hk30 : k = 30 := by omega
    subst hk30
    refine ⟨30, le_refl _, le_refl _, ?_, hcount, hmin⟩
    unfold powerOf2Loop
    have : ¬ ((colorCount : Int) > (2 : Int) ^ 30) := by
      have : (colorCount : Int) ≤ ((2 ^ 30 : Nat) : Int) := by exact_mod_cast hcount
      push_cast at this
      omega
    rw [if_neg this]
  | succ d ih =>
    intro k fuel hk h1 hf hmin
    obtain ⟨f, rfl⟩ : ∃ f, fuel = f + 1 := ⟨fuel - 1, by omega⟩
    unfold powerOf2Loop
    by_cases hgt : colorCount > 2 ^ k
    · have hgt' : (colorCount : Int) > (2 : Int) ^ k := by exact_mod_cast hgt
      simp only [hgt', if_true]
      rw [toInt32_pow_two k (by omega)]
      obtain ⟨e, hke, he30, hloop, hle, hmin'⟩ :=
        ih (k + 1) f (by omega) (by omega) (by omega) (Or.inr (by simpa using hgt))
      exact ⟨e, by omega, he30, hloop, hle, hmin'⟩
    · have hgt' : ¬ ((colorCount : Int) > (2 : Int) ^ k) := by
        intro h; exact hgt (by exact_mod_cast h)
      simp only [hgt', if_false]
      exact ⟨k, le_refl _, by omega, rfl, by omega, hmin⟩

/-- C12: for a palette with `c` colours and `t = 1` if it uses transparency,
else `0`, with `c + t` at most `2^30`, `_extendPaletteToPowerOf2` returns, and
afterwards the colour list has the length `2^e` of the smallest power of two
that is at least 2 and at least `c + t`, its first `c` entries are the
original colours in their order, and every entry after them is 0. -/
theorem extendPaletteToPowerOf2_spec (palette : Palette)
    (hsize : palette.colors.length + (if palette.usesTransparency then 1 else 0) ≤ 2 ^ 30) :
    ∃ extended e, _extendPaletteToPowerOf2 palette = .ok extended ∧
      extended.colors.length = 2 ^ e ∧ 1 ≤ e ∧
      palette.colors.length + (if palette.usesTransparency then 1 else 0) ≤ 2 ^ e ∧
      (∀ e', 1 ≤ e' →
        palette.colors.length + (if palette.usesTransparency then 1 else 0) ≤ 2 ^ e' →
        2 ^ e ≤ 2 ^ e') ∧
      extended.colors.take palette.colors.length = palette.colors ∧
      (∀ k, palette.colors.length ≤ k → k < extended.colors.length →
        extended.colors[k]? = some 0) ∧
      extended.usesTransparency = palette.usesTransparency ∧
      extended.indexSize = palette.indexSize := by
  have hcolors : ∃ pad, (if palette.usesTransparency = true then palette.colors ++ [0]
      else palette.colors) = palette.colors ++ pad ∧
      pad.length = (if palette.usesTransparency then 1 else 0) ∧ ∀ x ∈ pad, x = 0 := by
    by_cases ht : palette.usesTransparency = true
    · exact ⟨[0], by simp [ht], by simp [ht], by simp⟩
    · exact ⟨[], by simp [ht], by simp [ht], by simp⟩
  obtain ⟨pad, hpad, hpadlen, hpad0⟩ := hcolors
  have hlen : (palette.colors ++ pad).length =
      palette.colors.length + (if palette.usesTransparency then 1 else 0) := by
    rw [List.length_append, hpadlen]
  obtain ⟨e, he1, -, hloop, hle, hmin⟩ := powerOf2Loop_spec _ (hlen ▸ hsize) 29 1 64 rfl
    (le_refl _) (by decide) (Or.inl rfl)
  simp only [pow_one] at hloop
  have hnat : ((2 : Int) ^ e).toNat = 2 ^ e := by
    have : ((2 : Int) ^ e) = (((2 : Nat) ^ e : Nat) : Int) := by push_cast; rfl
    rw [this, Int.toNat_ofNat]
  have hres : _extendPaletteToPowerOf2 palette =
      .ok { palette with
        colors := palette.colors ++ (pad ++ List.replicate (2 ^ e - (palette.colors ++ pad).length) 0) } := by
    simp only [_extendPaletteToPowerOf2, hpad, hloop, hnat]
    rw [List.take_of_length_le hle, List.append_assoc]
  have hpadall : ∀ x ∈ pad ++ List.replicate (2 ^ e - (palette.colors ++ pad).length) 0,
      x = 0 := by
    intro x hx
    rcases List.mem_append.1 hx with h | h
    · exact hpad0 x h
    · exact (List.mem_replicate.1 h).2
  refine ⟨_, e, hres, ?_, he1, hlen ▸ hle, ?_, ?_, ?_, rfl, rfl⟩
  · simp only [List.length_append, List.length_replicate] at hle ⊢
    omega
  · intro e' he' hle'
    apply Nat.pow_le_pow_right (by decide)
    rcases hmin with h | h
    · omega
    · have hlt : 2 ^ (e - 1) < 2 ^ e' := lt_of_lt_of_le h (hlen ▸ hle')
      have := (Nat.pow_lt_pow_iff_right (by decide : 1 < 2)).1 hlt
      omega
  · simp
  · intro k hk hklt
    simp only at hklt ⊢
    rw [List.getElem?_append_right hk]
    have hklt' : k - palette.colors.length <
        (pad ++ List.replicate (2 ^ e - (palette.colors ++ pad).length) 0).length := by
      simp only [List.length_append] at hklt ⊢
      omega
    rw [List.getElem?_eq_getElem hklt']
    exact congrArg some (hpadall _ (List.getElem_mem hklt'))

/-- Witness of C12: five colours and transparency give eight entries. -/
theorem extendPaletteToPowerOf2_spec_witness :
    ∃ extended e, _extendPaletteToPowerOf2 ⟨[1, 2, 3, 4, 5], true, 6⟩ = .ok extended ∧
      extended.colors = [1, 2, 3, 4, 5, 0, 0, 0] ∧ extended.colors.length = 2 ^ e ∧ 1 ≤ e :=
  let ⟨extended, e, h, hlen, he, _⟩ :=
    extendPaletteToPowerOf2_spec ⟨[1, 2, 3, 4, 5], true, 6⟩ (by decide)
  ⟨extended, e, h, by
    have h' : _extendPaletteToPowerOf2 ⟨[1, 2, 3, 4, 5], true, 6⟩ =
        .ok ⟨[1, 2, 3, 4, 5, 0, 0, 0], true, 6⟩ := rfl
    rw [h'] at h
    cases h
    rfl, hlen, he⟩

/-! ## The capacity error -/

/-- Whatever the index of the frame, the capacity error of the palette loop
carries the same text. -/
theorem localPalettesLoop_gifError (frameGlobal : Option (List GifFrame)) :
    ∀ (n i : Nat) (uses : Bool) (acc : List Palette) (msg : String),
      localPalettesLoop frameGlobal n i uses acc = .error (.gifError msg) →
      msg = "Frame \x7b$i\x7d uses more than 256 color indexes" := by
  intro n
  induction n with
  | zero => intro i uses acc msg h; simp [localPalettesLoop] at h
  | succ n ih =>
    intro i uses acc msg h
    unfold localPalettesLoop at h
    cases frameGlobal with
    | none => simp at h
    | some frame =>
      simp only at h
      cases hf : frame[i]? with
      | none => simp [hf] at h
      | some frameI =>
        simp only [hf] at h
        cases hut : frameI.makePalette.usesTransparency with
        | false =>
          simp only [hut, Bool.false_eq_true, if_false] at h
          by_cases hsz : frameI.makePalette.colors.length > 256
          · simp only [hsz, if_true, Except.error.injEq, Failure.gifError.injEq] at h
            exact h.symm
          · simp only [hsz, if_false] at h
            exact ih _ _ _ _ h
        | true =>
          simp only [hut, if_true] at h
          by_cases hsz : frameI.makePalette.colors.length + 1 > 256
          · simp only [hsz, if_true, Except.error.injEq, Failure.gifError.injEq] at h
            exact h.symm
          · simp only [hsz, if_false] at h
            exact ih _ _ _ _ h

set_option maxRecDepth 100000 in
/-- C13 at a failing input: two frames of which the one at index 1 has 257
colours.  In a host whose global `frame` is the frame list, `_encodeGif` fails
with a `GifError` before a writer exists, and its message is the literal text
`Frame {$i} uses more than 256 color indexes`, which names no index; where the
global `frame` is not defined it fails with a `ReferenceError` instead. -/
theorem encodeGif_oversized_frame_message :
    collectLocalPalettes (some oversizedFrames) oversizedFrames =
        .error (.gifError "Frame \x7b$i\x7d uses more than 256 color indexes") ∧
      _encodeGif (sampleHost oversizedFrames) oversizedFrames (sampleSpec .both 0) =
        .error (.gifError "Frame \x7b$i\x7d uses more than 256 color indexes") ∧
      _encodeGif { sampleHost oversizedFrames with frame := none } oversizedFrames
          (sampleSpec .both 0) =
        .error (.referenceError "frame is not defined") :=
  ⟨rfl, rfl, rfl⟩

/-! ## The two lookups -/

theorem colorLookupLinearLoop_eq (color : Nat) : ∀ (colors : List Nat) (i : Nat),
    colorLookupLinearLoop color colors i =
      if color ∈ colors then some (i + colors.indexOf color) else none := by
  intro colors
  induction colors with
  | nil => intro i; simp [colorLookupLinearLoop]
  | cons c rest ih =>
    intro i
    unfold colorLookupLinearLoop
    by_cases hc : c = color
    · simp [hc]
    · have hc' : color ≠ c := fun h => hc h.symm
      rw [if_neg hc, ih (i + 1), List.indexOf_cons_ne _ hc]
      simp only [List.mem_cons, hc', false_or]
      split
      · congr 1; omega
      · rfl

/-- A result of the binary search is a position of the colour. -/
theorem colorLookupBinaryLoop_some (colors : List Nat) (color : Nat) :
    ∀ (fuel : Nat) (lo hi m : Int), 0 ≤ lo → hi < colors.length →
      colorLookupBinaryLoop colors color fuel lo hi = some m →
      0 ≤ m ∧ colors[m.toNat]? = some color := by
  intro fuel
  induction fuel with
  | zero => intro lo hi m _ _ h; simp [colorLookupBinaryLoop] at h
  | succ fuel ih =>
    intro lo hi m h0 h3 h
    unfold colorLookupBinaryLoop at h
    by_cases hlohi : lo ≤ hi
    · have hmid0 : 0 ≤ (lo + hi) / 2 := by omega
      have hmidlt : ((lo + hi) / 2).toNat < colors.length := by omega
      simp only [hlohi, if_true, hmid0, List.getElem?_eq_getElem hmidlt] at h
      have hget : colors[((lo + hi) / 2).toNat]? = some colors[((lo + hi) / 2).toNat] :=
        List.getElem?_eq_getElem hmidlt
      generalize colors[((lo + hi) / 2).toNat] = c at hget h
      by_cases hgt : c > color
      · simp only [hgt, if_true] at h
        exact ih lo _ m h0 (by omega) h
      · by_cases hlt : c < color
        · simp only [hgt, hlt, if_true, if_false] at h
          exact ih _ hi m (by omega) h3 h
        · simp only [hgt, hlt, if_false, Option.some.injEq] at h
          subst h
          have : c = color := by omega
          exact ⟨hmid0, this ▸ hget⟩
    · simp [hlohi] at h

/-- More fuel than the length of the interval does not change the result of
the binary search: the fuel is used up only where the source leaves its
loop. -/
theorem colorLookupBinaryLoop_fuel (colors : List Nat) (color : Nat) :
    ∀ (fuel : Nat) (lo hi : Int) (extra : Nat), 0 ≤ lo → hi < colors.length →
      hi + 1 - lo ≤ fuel →
      colorLookupBinaryLoop colors color (fuel + extra) lo hi =
        colorLookupBinaryLoop colors color fuel lo hi := by
  intro fuel
  induction fuel with
  | zero =>
    intro lo hi extra _ _ hf
    have hlohi : ¬ lo ≤ hi := by omega
    cases extra with
    | zero => rfl
    | succ extra =>
      rw [Nat.zero_add]
      simp [colorLookupBinaryLoop, hlohi]
  | succ fuel ih =>
    intro lo hi extra h0 h3 hf
    rw [show fuel + 1 + extra = (fuel + extra) + 1 by omega]
    unfold colorLookupBinaryLoop
    by_cases hlohi : lo ≤ hi
    · have hmid0 : 0 ≤ (lo + hi) / 2 := by omega
      have hmidlt : ((lo + hi) / 2).toNat < colors.length := by omega
      simp only [hlohi, if_true, hmid0, List.getElem?_eq_getElem hmidlt]
      rw [ih lo _ extra h0 (by omega) (by omega), ih _ hi extra (by omega) h3 (by omega)]
    · simp [hlohi]

theorem colorLookupBinary_eq (colors : List Nat) (color : Nat) (hs : colors.Sorted (· < ·)) :
    _colorLookupBinary colors color =
      if color ∈ colors then some (colors.indexOf color) else none := by
  by_cases hmem : color ∈ colors
  · rw [if_pos hmem]
    exact colorLookupBinary_of_getElem colors color hs _ (List.getElem?_indexOf hmem)
  · rw [if_neg hmem]
    unfold _colorLookupBinary
    cases h : colorLookupBinaryLoop colors color colors.length 0 ((colors.length : Int) - 1) with
    | none => rfl
    | some m =>
      exfalso
      obtain ⟨-, hget⟩ := colorLookupBinaryLoop_some colors color _ _ _ m (le_refl _)
        (by omega) h
      exact hmem (List.getElem?_mem hget)

/-- C20: on a colour list that is sorted ascending without duplicates, for
every colour value, `_colorLookupLinear` and `_colorLookupBinary` return the
same result: the position of the colour in the list if it is there (the
entry at that position is the colour), and `null` if it is not.  The result
of the binary search is its result for every larger fuel. -/
theorem colorLookup_linear_eq_binary (colors : List Nat) (color : Nat)
    (hs : colors.Sorted (· < ·)) :
    _colorLookupLinear colors color = _colorLookupBinary colors color ∧
      _colorLookupLinear colors color =
        (if color ∈ colors then some (colors.indexOf color) else none) ∧
      (∀ p, _colorLookupLinear colors color = some p → colors[p]? = some color) ∧
      ∀ extra, (colorLookupBinaryLoop colors color (colors.length + extra) 0
        ((colors.length : Int) - 1)).map Int.toNat = _colorLookupBinary colors color := by
  have hlin : _colorLookupLinear colors color =
      (if color ∈ colors then some (colors.indexOf color) else none) := by
    unfold _colorLookupLinear
    rw [colorLookupLinearLoop_eq]
    simp
  refine ⟨by rw [hlin, colorLookupBinary_eq colors color hs], hlin, ?_, ?_⟩
  · intro p hp
    rw [hlin] at hp
    by_cases hmem : color ∈ colors
    · rw [if_pos hmem, Option.some.injEq] at hp
      rw [← hp]
      exact List.getElem?_indexOf hmem
    · simp [hmem] at hp
  · intro extra
    unfold _colorLookupBinary
    rw [colorLookupBinaryLoop_fuel colors color colors.length 0 _ extra (le_refl _) (by omega)
      (by omega)]

/-- Witness of C20: the palette that the palette test expects for its
four-colour bitmap; red is at position 2 for both lookups, and grey is in
neither. -/
theorem colorLookup_linear_eq_binary_witness :
    _colorLookupLinear [0x0000ff, 0x00ff00, 0xff0000, 0xffffff] 0xff0000 =
        _colorLookupBinary [0x0000ff, 0x00ff00, 0xff0000, 0xffffff] 0xff0000 ∧
      _colorLookupBinary [0x0000ff, 0x00ff00, 0xff0000, 0xffffff] 0xff0000 = some 2 ∧
      _colorLookupLinear [0x0000ff, 0x00ff00, 0xff0000, 0xffffff] 0x404040 =
        _colorLookupBinary [0x0000ff, 0x00ff00, 0xff0000, 0xffffff] 0x404040 ∧
      _colorLookupBinary [0x0000ff, 0x00ff00, 0xff0000, 0xffffff] 0x404040 = none :=
  ⟨(colorLookup_linear_eq_binary [0x0000ff, 0x00ff00, 0xff0000, 0xffffff] 0xff0000
      (by decide)).1, rfl,
    (colorLookup_linear_eq_binary [0x0000ff, 0x00ff00, 0xff0000, 0xffffff] 0x404040
      (by decide)).1, rfl⟩

/-! ## Pixels that are not fully opaque -/

/-- The index loop reads a pixel buffer only through which pixels have alpha
255 and through the colour bytes of those pixels. -/
theorem indexedImageLoop_congr (f : List Nat → Nat → Option Nat) (colors : List Nat)
    (tI : Nat) (data data' : List Nat) (hlen : data.length = data'.length)
    (hop : ∀ j, data[4 * j + 3]? = some 255 ↔ data'[4 * j + 3]? = some 255)
    (hrgb : ∀ j, data[4 * j + 3]? = some 255 →
      bufferGet data (4 * j) = bufferGet data' (4 * j) ∧
        bufferGet data (4 * j + 1) = bufferGet data' (4 * j + 1) ∧
        bufferGet data (4 * j + 2) = bufferGet data' (4 * j + 2)) :
    ∀ (fuel j : Nat) (buf : List Nat),
      indexedImageLoop f colors data tI fuel (4 * j) j buf =
        indexedImageLoop f colors data' tI fuel (4 * j) j buf := by
  intro fuel
  induction fuel with
  | zero => intro j buf; rfl
  | succ fuel ih =>
    intro j buf
    unfold indexedImageLoop
    rw [← hlen]
    by_cases hi : 4 * j < data.length
    · simp only [hi, if_true]
      have h4 : 4 * j + 4 = 4 * (j + 1) := by ring
      rw [h4]
      by_cases ho : data[4 * j + 3]? = some 255
      · have ho' := (hop j).1 ho
        obtain ⟨h0, h1, h2⟩ := hrgb j ho
        simp only [ho, ho', if_true, h0, h1, h2]
        exact ih _ _
      · have ho' : ¬ data'[4 * j + 3]? = some 255 := fun h => ho ((hop j).2 h)
        simp only [ho, ho', if_false]
        exact ih _ _
    · simp [hi]

theorem bufferGet_set_ne (data : List Nat) (m k v : Nat) (h : m ≠ k) :
    bufferGet (data.set m v) k = bufferGet data k := by
  simp [bufferGet, List.getD_eq_getElem?_getD, List.getElem?_set_ne h]

/-- C18, as amended: on encode, a pixel with an alpha from 1 to 254 is
treated as fully transparent, not as opaque: `_getIndexedImage` takes for it
the branch of alpha 0 and never looks its RGB up, so it returns what it returns
when that pixel has alpha 0, whether or not the palette contains the RGB. -/
theorem getIndexedImage_intermediate_alpha (frameIndex : Nat) (frame : GifFrame)
    (palette : Palette) (k alpha : Nat)
    (hpixel : frame.bitmap.data[4 * k + 3]? = some alpha)
    (h1 : 1 ≤ alpha) (h254 : alpha ≤ 254) :
    _getIndexedImage frameIndex frame palette =
      _getIndexedImage frameIndex
        { frame with bitmap := { frame.bitmap with data := frame.bitmap.data.set (4 * k + 3) 0 } }
        palette := by
  have hklen : 4 * k + 3 < frame.bitmap.data.length := (List.getElem?_eq_some.1 hpixel).1
  have hloop := indexedImageLoop_congr
    (if palette.colors.length ≤ 5 then _colorLookupLinear else _colorLookupBinary)
    palette.colors palette.colors.length frame.bitmap.data
    (frame.bitmap.data.set (4 * k + 3) 0) (by simp)
    (by
      intro j
      by_cases hj : j = k
      · subst hj
        rw [hpixel, List.getElem?_set_self hklen]
        simp only [Option.some.injEq]
        omega
      · rw [List.getElem?_set_ne (by omega)])
    (by
      intro j hj
      have hjk : j ≠ k := by
        rintro rfl
        rw [hpixel] at hj
        simp only [Option.some.injEq] at hj
        omega
      exact ⟨(bufferGet_set_ne _ _ _ _ (by omega)).symm,
        (bufferGet_set_ne _ _ _ _ (by omega)).symm,
        (bufferGet_set_ne _ _ _ _ (by omega)).symm⟩)
    frame.bitmap.data.length 0 (newBuffer (frame.bitmap.data.length / 4))
  simp only [Nat.mul_zero] at hloop
  simp only [_getIndexedImage, List.length_set, hloop]

/-- Witness of C18 as amended: a 2x1 frame whose second pixel is black with
alpha 127, and the palette black plus transparency. -/
theorem getIndexedImage_intermediate_alpha_witness :
    _getIndexedImage 0 (sampleFrame 2 1 [0, 0, 0, 255, 0, 0, 0, 127] ⟨[0], true, 2⟩)
        ⟨[0], true, 2⟩ =
      _getIndexedImage 0
        { sampleFrame 2 1 [0, 0, 0, 255, 0, 0, 0, 127] ⟨[0], true, 2⟩ with
          bitmap :=
            { (sampleFrame 2 1 [0, 0, 0, 255, 0, 0, 0, 127] ⟨[0], true, 2⟩).bitmap with
              data := (sampleFrame 2 1 [0, 0, 0, 255, 0, 0, 0, 127]
                ⟨[0], true, 2⟩).bitmap.data.set (4 * 1 + 3) 0 } }
        ⟨[0], true, 2⟩ :=
  getIndexedImage_intermediate_alpha 0
    (sampleFrame 2 1 [0, 0, 0, 255, 0, 0, 0, 127] ⟨[0], true, 2⟩) ⟨[0], true, 2⟩ 1 127 rfl
    (by decide) (by decide)

/-- C18 as stated fails at a 1x1 frame whose pixel is black with alpha 127
and the palette black plus transparency: the palette contains the pixel's RGB
at position 0, and the entry of the pixel is the transparent index 1. -/
theorem getIndexedImage_half_alpha_is_transparent :
    (sampleFrame 1 1 [0, 0, 0, 127] ⟨[0], true, 2⟩).bitmap.data[4 * 0 + 3]? = some 127 ∧
      (⟨[0], true, 2⟩ : Palette).colors[0]? = some (pixelColor [0, 0, 0, 127] 0) ∧
      _getIndexedImage 0 (sampleFrame 1 1 [0, 0, 0, 127] ⟨[0], true, 2⟩) ⟨[0], true, 2⟩ =
        .ok { buffer := [1], transparentIndex := some 1 } :=
  ⟨rfl, rfl, rfl⟩

/-! ## The size mode -/

/-- In size mode the encodings are made in the order global, local, and the
global one is returned exactly when the `length` of the two `Gif` objects
compare `<=`. -/
theorem runEncoding_encodeBoth {W : Type} (host : Host W) (frames : List GifFrame)
    (spec : GifSpec) (globalSizeEst localSizeEst : JSNum) (globalPalette : Palette)
    (localPalettes : List Palette) (loopCount : Option Nat) (globalGif localGif : Gif)
    (hg : _encodeGlobal host frames spec globalSizeEst globalPalette loopCount = .ok globalGif)
    (hl : _encodeLocal host frames spec localSizeEst localPalettes loopCount = .ok localGif) :
    runEncoding host frames spec
        (.encodeBoth globalSizeEst globalPalette localSizeEst localPalettes loopCount) =
      .ok (if (host.gifLength globalGif).le (host.gifLength localGif) then globalGif
        else localGif) := by
  simp [runEncoding, hg, hl, bind, Except.bind, pure, Except.pure]

/-- Where a `Gif` object has no `length` property, the size mode returns the
local encoding. -/
theorem runEncoding_encodeBoth_undefined_length {W : Type} (host : Host W)
    (frames : List GifFrame) (spec : GifSpec) (globalSizeEst localSizeEst : JSNum)
    (globalPalette : Palette) (localPalettes : List Palette) (loopCount : Option Nat)
    (globalGif localGif : Gif)
    (hg : _encodeGlobal host frames spec globalSizeEst globalPalette loopCount = .ok globalGif)
    (hl : _encodeLocal host frames spec localSizeEst localPalettes loopCount = .ok localGif)
    (hlength : ∀ gif, host.gifLength gif = .nan) :
    runEncoding host frames spec
        (.encodeBoth globalSizeEst globalPalette localSizeEst localPalettes loopCount) =
      .ok localGif := by
  rw [runEncoding_encodeBoth host frames spec _ _ _ _ _ _ _ hg hl, hlength, hlength]
  rfl

/-- In the mode `OptimizeSize`, an encoder call that `_encodeGif` reaches is
`_encodeLocal`, where the global palette would need more than 256 indexes, or
it is the pair of calls in which `_encodeGlobal` gets `NaN` as its buffer
size. -/
theorem encodeGifChoice_size_cases (frameGlobal : Option (List GifFrame))
    (frames : List GifFrame) (spec : GifSpec) (uses : Bool) (pals : List Palette)
    (encoding : Encoding)
    (hopt : spec.optimization = .size)
    (hcollect : collectLocalPalettes frameGlobal frames = .ok (uses, pals))
    (h : encodeGifChoice frameGlobal frames spec = .ok encoding) :
    ∃ localSizeEst,
      (globalIndexSize uses pals > 256 ∧
        encoding = .encodeLocal localSizeEst pals (encodeLoopCount spec.loops)) ∨
      (globalIndexSize uses pals ≤ 256 ∧
        encoding = .encodeBoth .nan (makeGlobalPalette uses pals) localSizeEst pals
          (encodeLoopCount spec.loops)) := by
  rw [encodeGifChoice_of_collect _ _ _ _ _ hcollect] at h
  simp only [bind, Except.bind, pure, Except.pure, hopt] at h
  cases hck : checkTransparency spec uses with
  | error e => simp [hck] at h
  | ok u =>
    simp only [hck] at h
    cases hle : _getSizeEstimateLocal pals frames with
    | error e => simp [hle] at h
    | ok le =>
      simp only [hle] at h
      by_cases hg : globalIndexSize uses pals > 256
      · simp [hg] at h
        exact ⟨le, Or.inl ⟨hg, h.symm⟩⟩
      · simp only [hg, if_false] at h
        cases frames with
        | nil =>
          have hlen := (collectLocalPalettes_spec _ _ _ _ hcollect).1
          have huses := (collectLocalPalettes_spec _ _ _ _ hcollect).2.1
          have hp : pals = [] := List.length_eq_zero.1 (by simpa using hlen)
          subst hp
          have hu : uses = false := by simpa using huses
          subst hu
          simp [_getSizeEstimateGlobal, getPixelBitWidth_zero, makeGlobalPalette,
            globalIndexSize, globalPaletteTree, bind, Except.bind] at h
        | cons frame rest =>
          rcases getSizeEstimateGlobal_cons (makeGlobalPalette uses pals) frame rest
            (by simp only [makeGlobalPalette]; omega) with hge | hge
          · simp [hge] at h
            exact ⟨le, Or.inr ⟨by omega, h.symm⟩⟩
          · simp [hge] at h

/-- In the mode `OptimizeSize` with a global palette of at most 256 indexes,
`_encodeGif` returns no `Gif` in a host whose `new Buffer(NaN)` throws: the
first encoder call, `_encodeGlobal`, asks for a buffer of the size `NaN`. -/
theorem encodeGif_size_fails_of_checked_buffer {W : Type} (host : Host W)
    (frames : List GifFrame) (spec : GifSpec) (uses : Bool) (pals : List Palette)
    (hopt : spec.optimization = .size)
    (hcollect : collectLocalPalettes host.frame frames = .ok (uses, pals))
    (hvalid : globalIndexSize uses pals ≤ 256)
    (hnan : ∀ width height options, ∃ e, host.newWriter .nan width height options = .error e) :
    ∃ e, _encodeGif host frames spec = .error e := by
  unfold _encodeGif
  cases hch : encodeGifChoice host.frame frames spec with
  | error e => exact ⟨e, rfl⟩
  | ok encoding =>
    obtain ⟨le, h | h⟩ := encodeGifChoice_size_cases _ _ _ _ _ _ hopt hcollect hch
    · omega
    · obtain ⟨e, he⟩ := hnan spec.width spec.height
        { palette := some (makeGlobalPalette uses pals).colors,
          loop := encodeLoopCount spec.loops }
      refine ⟨e, ?_⟩
      simp [h.2, bind, Except.bind, runEncoding, _encodeGlobal, he]

/-- C19 at a failing input: the spec's three 3x3 frames in the mode
`OptimizeSize`, in a host whose global `frame` is that frame list and whose
`new Buffer(NaN)` throws.  The global palette has index size 2, so there is a
valid global table; the local estimate is 127 and the global estimate is
`NaN`; `_encodeGif` reaches the pair of encoder calls with `NaN` as the size
of the global buffer, `_encodeGlobal` throws at `new Buffer(NaN)`, and
`_encodeGif` throws with it: no encoding is produced and none is returned.
The local encoding, which is not reached, would have 27 index bytes. -/
theorem size_mode_global_buffer_nan :
    collectLocalPalettes (checkedBufferHost blackDotFrames).frame blackDotFrames =
        .ok (true, [⟨[0], true, 2⟩, ⟨[0], true, 2⟩, ⟨[0], true, 2⟩]) ∧
      globalIndexSize true [⟨[0], true, 2⟩, ⟨[0], true, 2⟩, ⟨[0], true, 2⟩] = 2 ∧
      encodeGifChoice (checkedBufferHost blackDotFrames).frame blackDotFrames
          (sampleSpec .size 0) =
        .ok (.encodeBoth .nan ⟨[0], true, 2⟩ (.num 127)
          [⟨[0], true, 2⟩, ⟨[0], true, 2⟩, ⟨[0], true, 2⟩] (some 0)) ∧
      _encodeGlobal (checkedBufferHost blackDotFrames) blackDotFrames (sampleSpec .size 0)
          .nan ⟨[0], true, 2⟩ (some 0) =
        .error (.writerError "new Buffer(NaN): the size is out of range") ∧
      _encodeGif (checkedBufferHost blackDotFrames) blackDotFrames (sampleSpec .size 0) =
        .error (.writerError "new Buffer(NaN): the size is out of range") ∧
      _encodeLocal (checkedBufferHost blackDotFrames) blackDotFrames (sampleSpec .size 0)
          (.num 127) [⟨[0], true, 2⟩, ⟨[0], true, 2⟩, ⟨[0], true, 2⟩] (some 0) =
        .ok { buffer := [0, 0, 0, 0, 1, 0, 0, 0, 1, 1, 0, 0, 0, 0, 0, 0, 0, 1,
                         1, 0, 0, 0, 1, 0, 0, 0, 0],
              frames := blackDotFrames, spec := sampleSpec .size 0 } :=
  ⟨rfl, rfl, rfl, rfl, rfl, rfl⟩

/-! ## The dimension check of `encodeGif` -/

theorem foldl_max_spec (extent : GifFrame → Nat) : ∀ (frames : List GifFrame) (init : Nat),
    init ≤ frames.foldl
        (fun m frame => if extent frame > m then extent frame else m) init ∧
      (∀ frame ∈ frames, extent frame ≤ frames.foldl
        (fun m frame => if extent frame > m then extent frame else m) init) ∧
      (frames.foldl (fun m frame => if extent frame > m then extent frame else m) init = init ∨
        ∃ frame ∈ frames, frames.foldl
          (fun m frame => if extent frame > m then extent frame else m) init = extent frame) := by
  intro frames
  induction frames with
  | nil => intro init; simp
  | cons f rest ih =>
    intro init
    obtain ⟨h1, h2, h3⟩ := ih (if extent f > init then extent f else init)
    simp only [List.foldl_cons, List.mem_cons, forall_eq_or_imp, exists_eq_or_imp]
    by_cases hgt : extent f > init
    · simp only [hgt, if_true] at h1 h2 h3 ⊢
      refine ⟨by omega, ⟨h1, h2⟩, ?_⟩
      rcases h3 with h3 | ⟨g, hg, h3⟩
      · exact Or.inr (Or.inl h3)
      · exact Or.inr (Or.inr ⟨g, hg, h3⟩)
    · simp only [hgt, if_false] at h1 h2 h3 ⊢
      refine ⟨h1, ⟨by omega, h2⟩, ?_⟩
      rcases h3 with h3 | ⟨g, hg, h3⟩
      · exact Or.inl h3
      · exact Or.inr (Or.inr ⟨g, hg, h3⟩)

/-- The value `maxWidth` is the maximum over the frames of
`xOffset + bitmap.width`, and `maxHeight` that of `yOffset + bitmap.height`. -/
theorem maxFrame_spec (frames : List GifFrame) (hne : frames ≠ []) :
    (∀ frame ∈ frames, frame.xOffset + frame.bitmap.width ≤ maxFrameWidth frames) ∧
      (∃ frame ∈ frames, maxFrameWidth frames = frame.xOffset + frame.bitmap.width) ∧
      (∀ frame ∈ frames, frame.yOffset + frame.bitmap.height ≤ maxFrameHeight frames) ∧
      (∃ frame ∈ frames, maxFrameHeight frames = frame.yOffset + frame.bitmap.height) := by
  obtain ⟨f, hf⟩ := List.exists_mem_of_ne_nil frames hne
  obtain ⟨-, hw2, hw3⟩ := foldl_max_spec (fun frame => frame.xOffset + frame.bitmap.width)
    frames 0
  obtain ⟨-, hh2, hh3⟩ := foldl_max_spec (fun frame => frame.yOffset + frame.bitmap.height)
    frames 0
  refine ⟨hw2, ?_, hh2, ?_⟩
  · rcases hw3 with h | h
    · refine ⟨f, hf, ?_⟩
      have := hw2 f hf
      unfold maxFrameWidth
      simp only at this h ⊢
      omega
    · exact h
  · rcases hh3 with h | h
    · refine ⟨f, hf, ?_⟩
      have := hh2 f hf
      unfold maxFrameHeight
      simp only at this h ⊢
      omega
    · exact h

theorem dimensionsMismatch_iff (spec : CallerSpec) (maxWidth maxHeight : Nat) :
    dimensionsMismatch spec maxWidth maxHeight = true ↔
      (∃ w, spec.width = some w ∧ w ≠ 0 ∧ w ≠ maxWidth) ∨
        (∃ h, spec.height = some h ∧ h ≠ 0 ∧ h ≠ maxHeight) := by
  unfold dimensionsMismatch
  cases hw : spec.width <;> cases hh : spec.height <;> simp [truthy]

/-- C14, as amended: for every non-empty frame sequence and caller spec,
`encodeGif` fails with the 'GIF dimensions' `GifError` if and only if the spec
gives a non-zero width that differs from the maximum over the frames of
`xOffset + bitmap.width`, or gives a non-zero height that differs from the
maximum over the frames of `yOffset + bitmap.height`. -/
theorem encodeGif_dimensions_error {W : Type} (host : Host W)
    (usesTransparencyGlobal : Option (Option Bool)) (frames : List GifFrame)
    (spec : CallerSpec) (hne : frames ≠ []) :
    (encodeGif host usesTransparencyGlobal frames spec =
        .error (dimensionsError spec (maxFrameWidth frames) (maxFrameHeight frames)) ↔
      (∃ w, spec.width = some w ∧ w ≠ 0 ∧ w ≠ maxFrameWidth frames) ∨
        (∃ h, spec.height = some h ∧ h ≠ 0 ∧ h ≠ maxFrameHeight frames)) ∧
      (∀ msg, encodeGif host usesTransparencyGlobal frames spec = .error (.gifError msg) →
        .gifError msg = dimensionsError spec (maxFrameWidth frames) (maxFrameHeight frames)) ∧
      (∀ frame ∈ frames, frame.xOffset + frame.bitmap.width ≤ maxFrameWidth frames) ∧
      (∃ frame ∈ frames, maxFrameWidth frames = frame.xOffset + frame.bitmap.width) ∧
      (∀ frame ∈ frames, frame.yOffset + frame.bitmap.height ≤ maxFrameHeight frames) ∧
      (∃ frame ∈ frames, maxFrameHeight frames = frame.yOffset + frame.bitmap.height) := by
  have hlen : ¬ frames.length = 0 := fun h => hne (List.length_eq_zero.1 h)
  refine ⟨?_, ?_, maxFrame_spec frames hne⟩
  · rw [← dimensionsMismatch_iff]
    unfold encodeGif
    simp only [hlen, if_false]
    by_cases hm : dimensionsMismatch spec (maxFrameWidth frames) (maxFrameHeight frames) = true
    · simp [hm]
    · simp only [hm, Bool.false_eq_true, if_false, iff_false]
      cases usesTransparencyGlobal with
      | none => simp [dimensionsError]
      | some u => simp
  · intro msg h
    unfold encodeGif at h
    simp only [hlen, if_false] at h
    by_cases hm : dimensionsMismatch spec (maxFrameWidth frames) (maxFrameHeight frames) = true
    · simp only [hm, if_true, Except.error.injEq] at h
      exact h.symm
    · simp only [hm, Bool.false_eq_true, if_false] at h
      cases usesTransparencyGlobal with
      | none => simp at h
      | some u => simp at h

/-- Witness of C14 as amended: the spec's three 3x3 frames with a spec that
gives the width 4. -/
theorem encodeGif_dimensions_error_witness :
    encodeGif (sampleHost blackDotFrames) none blackDotFrames ⟨some 4, none, none, none, none⟩ =
      .error (.gifError
        "GIF dimensions 4 x undefined != max frame dimensions 3 x 3 (try not specifying GIF dimensions)") :=
  ((encodeGif_dimensions_error (sampleHost blackDotFrames) none blackDotFrames
    ⟨some 4, none, none, none, none⟩ (by decide)).1.2
      (Or.inl ⟨4, rfl, by decide, by decide⟩)).trans rfl

/-- C14 as stated fails at a spec that gives the width 0 for the spec's three
3x3 frames: the width 0 differs from the maximum 3, and `encodeGif` does not
fail with the 'GIF dimensions' error; it fails at line 100 where the global
`usesTransparency` is not defined, and returns a promise where it is. -/
theorem encodeGif_zero_width_passes :
    maxFrameWidth blackDotFrames = 3 ∧
      encodeGif (sampleHost blackDotFrames) none blackDotFrames
          ⟨some 0, none, none, none, none⟩ =
        .error (.referenceError "usesTransparency is not defined") ∧
      encodeGif (sampleHost blackDotFrames) (some none) blackDotFrames
          ⟨some 0, none, none, none, none⟩ =
        .ok (_encodeGif (sampleHost blackDotFrames) blackDotFrames
          { width := 3, height := 3, loops := 0, optimization := .both,
            usesTransparency := none }) :=
  ⟨rfl, rfl, rfl⟩

/-! ## Decoding: the transparency scan -/

theorem transparencyScanLoop_true (buffer : List Nat) : ∀ (fuel i : Nat),
    transparencyScanLoop buffer fuel i true = true := by
  intro fuel
  induction fuel with
  | zero => intro i; rfl
  | succ fuel ih =>
    intro i
    unfold transparencyScanLoop
    split
    · split <;> exact ih _
    · rfl

/-- The scan from pixel `j` on finds exactly an alpha byte 0 of a pixel at or
after `j`. -/
theorem transparencyScanLoop_spec (buffer : List Nat) : ∀ (fuel j : Nat),
    buffer.length ≤ 4 * (fuel + j) →
    (transparencyScanLoop buffer fuel (4 * j + 3) false = true ↔
      ∃ k, j ≤ k ∧ buffer[4 * k + 3]? = some 0) := by
  intro fuel
  induction fuel with
  | zero =>
    intro j hf
    simp only [transparencyScanLoop, Bool.false_eq_true, false_iff]
    rintro ⟨k, hk, hget⟩
    have := (List.getElem?_eq_some.1 hget).1
    omega
  | succ fuel ih =>
    intro j hf
    unfold transparencyScanLoop
    by_cases hi : 4 * j + 3 < buffer.length
    · simp only [hi, if_true]
      by_cases h0 : buffer[4 * j + 3]? = some 0
      · simp only [h0, if_true, transparencyScanLoop_true, true_iff]
        exact ⟨j, le_refl _, h0⟩
      · simp only [h0, if_false]
        rw [show 4 * j + 3 + 4 = 4 * (j + 1) + 3 by ring, ih (j + 1) (by omega)]
        constructor
        · rintro ⟨k, hk, hget⟩
          exact ⟨k, by omega, hget⟩
        · rintro ⟨k, hk, hget⟩
          refine ⟨k, ?_, hget⟩
          by_contra hlt
          have : k = j := by omega
          subst this
          exact h0 hget
    · simp only [hi, if_false, Bool.false_eq_true, false_iff]
      rintro ⟨k, hk, hget⟩
      have := (List.getElem?_eq_some.1 hget).1
      omega

/-- The substitution loop from pixel `j` on: the length is kept, the colour
bytes of the pixels at or after `j` whose alpha byte is 0 become the bytes of
`rgb`, every other byte is kept, and the flag is set exactly when it was set or
such a pixel exists. -/
theorem substituteLoop_spec (rgb : Nat × Nat × Nat) : ∀ (fuel j : Nat) (buf : List Nat)
    (uses : Bool), buf.length ≤ 4 * (fuel + j) →
    (substituteLoop rgb fuel (4 * j + 3) buf uses).1.length = buf.length ∧
      (∀ idx, (substituteLoop rgb fuel (4 * j + 3) buf uses).1[idx]? =
        if 4 * j ≤ idx ∧ idx % 4 < 3 ∧ buf[4 * (idx / 4) + 3]? = some 0 then
          some ((if idx % 4 = 0 then rgb.1 else if idx % 4 = 1 then rgb.2.1 else rgb.2.2) % 256)
        else buf[idx]?) ∧
      ((substituteLoop rgb fuel (4 * j + 3) buf uses).2 = true ↔
        uses = true ∨ ∃ k, j ≤ k ∧ buf[4 * k + 3]? = some 0) := by
  intro fuel
  induction fuel with
  | zero =>
    intro j buf uses hf
    simp only [substituteLoop, true_and]
    constructor
    · intro idx
      split
      · rename_i h
        have := (List.getElem?_eq_some.1 h.2.2).1
        omega
      · rfl
    · constructor
      · exact Or.inl
      · rintro (h | ⟨k, hk, hget⟩)
        · exact h
        · have := (List.getElem?_eq_some.1 hget).1
          omega
  | succ fuel ih =>
    intro j buf uses hf
    unfold substituteLoop
    by_cases hi : 4 * j + 3 < buf.length
    · simp only [hi, if_true]
      rw [show 4 * j + 3 + 4 = 4 * (j + 1) + 3 by ring]
      by_cases h0 : buf[4 * j + 3]? = some 0
      · simp only [h0, if_true]
        rw [show 4 * j + 3 - 3 = 4 * j by omega, show 4 * j + 3 - 2 = 4 * j + 1 by omega,
          show 4 * j + 3 - 1 = 4 * j + 2 by omega]
        have hlen' : (bufferSet (bufferSet (bufferSet buf (4 * j) rgb.1) (4 * j + 1) rgb.2.1)
            (4 * j + 2) rgb.2.2).length = buf.length := by simp [bufferSet]
        have halpha : ∀ m, (bufferSet (bufferSet (bufferSet buf (4 * j) rgb.1) (4 * j + 1)
            rgb.2.1) (4 * j + 2) rgb.2.2)[4 * m + 3]? = buf[4 * m + 3]? := by
          intro m
          simp only [bufferSet]
          rw [List.getElem?_set_ne (by omega), List.getElem?_set_ne (by omega),
            List.getElem?_set_ne (by omega)]
        obtain ⟨hl, hget, hflag⟩ := ih (j + 1) _ true (by rw [hlen']; omega)
        refine ⟨hl.trans hlen', ?_, ?_⟩
        · intro idx
          rw [hget idx, halpha]
          by_cases hnext : 4 * (j + 1) ≤ idx
          · have h4j : 4 * j ≤ idx := by omega
            simp only [hnext, h4j, true_and]
            split
            · rfl
            · simp only [bufferSet]
              rw [List.getElem?_set_ne (by omega), List.getElem?_set_ne (by omega),
                List.getElem?_set_ne (by omega)]
          · simp only [hnext, false_and, if_false]
            by_cases hlow : idx < 4 * j
            · have : ¬ 4 * j ≤ idx := by omega
              simp only [this, false_and, if_false, bufferSet]
              rw [List.getElem?_set_ne (by omega), List.getElem?_set_ne (by omega),
                List.getElem?_set_ne (by omega)]
            · have hdiv : idx / 4 = j := by omega
              have h4j : 4 * j ≤ idx := by omega
              simp only [h4j, hdiv, h0, true_and, and_true]
              simp only [bufferSet]
              by_cases hm0 : idx = 4 * j
              · subst hm0
                have hmod : 4 * j % 4 = 0 := by omega
                simp only [hmod]
                rw [List.getElem?_set_ne (by omega), List.getElem?_set_ne (by omega),
                  List.getElem?_set_self (by omega)]
                simp
              · by_cases hm1 : idx = 4 * j + 1
                · subst hm1
                  have hmod : (4 * j + 1) % 4 = 1 := by omega
                  simp only [hmod]
                  rw [List.getElem?_set_ne (by omega),
                    List.getElem?_set_self (by simp only [List.length_set]; omega)]
                  simp
                · by_cases hm2 : idx = 4 * j + 2
                  · subst hm2
                    have hmod : (4 * j + 2) % 4 = 2 := by omega
                    simp only [hmod]
                    rw [List.getElem?_set_self (by simp only [List.length_set]; omega)]
                    simp
                  · have hm3 : idx = 4 * j + 3 := by omega
                    subst hm3
                    have hmod : (4 * j + 3) % 4 = 3 := by omega
                    simp only [hmod]
                    rw [List.getElem?_set_ne (by omega), List.getElem?_set_ne (by omega),
                      List.getElem?_set_ne (by omega)]
                    simp
        · rw [hflag]
          simp only [true_or, true_iff]
          exact Or.inr ⟨j, le_refl _, h0⟩
      · simp only [h0, if_false]
        obtain ⟨hl, hget, hflag⟩ := ih (j + 1) buf uses (by omega)
        refine ⟨hl, ?_, ?_⟩
        · intro idx
          rw [hget idx]
          by_cases hnext : 4 * (j + 1) ≤ idx
          · have h4j : 4 * j ≤ idx := by omega
            simp only [hnext, h4j, true_and]
          · simp only [hnext, false_and, if_false]
            split
            · rename_i h
              have hdiv : idx / 4 = j := by omega
              rw [hdiv] at h
              exact absurd h.2.2 h0
            · rfl
        · rw [hflag]
          constructor
          · rintro (h | ⟨k, hk, hget'⟩)
            · exact Or.inl h
            · exact Or.inr ⟨k, by omega, hget'⟩
          · rintro (h | ⟨k, hk, hget'⟩)
            · exact Or.inl h
            · refine Or.inr ⟨k, ?_, hget'⟩
              by_contra hlt
              have : k = j := by omega
              subst this
              exact h0 hget'
    · simp only [hi, if_false, true_and]
      constructor
      · intro idx
        split
        · rename_i h
          have := (List.getElem?_eq_some.1 h.2.2).1
          omega
        · rfl
      · constructor
        · exact Or.inl
        · rintro (h | ⟨k, hk, hget⟩)
          · exact h
          · have := (List.getElem?_eq_some.1 hget).1
            omega

/-! ## Decoding: theorems -/

theorem decodeFrame_ok (codec : GifCodec) (reader : GifReader) (frameIndex : Nat)
    (already : Bool) (info : FrameInfo) (decoded : List Nat)
    (hinfo : reader.frameInfo frameIndex = .ok info)
    (hblit : reader.decodeAndBlitFrameRGBA frameIndex
      (newBuffer (info.width * info.height * 4)) = .ok decoded) :
    _decodeFrame codec reader frameIndex already =
      .ok ({ width := info.width, height := info.height,
             data := (scanDecoded codec decoded already).1, xOffset := info.x,
             yOffset := info.y, disposalMethod := info.disposal,
             isInterlaced := info.interlaced, delayHundreths := info.delay },
        (scanDecoded codec decoded already).2) := by
  simp [_decodeFrame, hinfo, hblit, bind, Except.bind, pure, Except.pure]

theorem decodeFrame_inv (codec : GifCodec) (reader : GifReader) (frameIndex : Nat)
    (already : Bool) (frame : DecodedFrame) (uses : Bool)
    (h : _decodeFrame codec reader frameIndex already = .ok (frame, uses)) :
    ∃ decoded, frame.data = (scanDecoded codec decoded already).1 ∧
      uses = (scanDecoded codec decoded already).2 := by
  unfold _decodeFrame at h
  cases hinfo : reader.frameInfo frameIndex with
  | error e => simp [hinfo, bind, Except.bind] at h
  | ok info =>
    cases hblit : reader.decodeAndBlitFrameRGBA frameIndex
        (newBuffer (info.width * info.height * 4)) with
    | error e => simp [hinfo, hblit, bind, Except.bind] at h
    | ok decoded =>
      simp only [hinfo, hblit, bind, Except.bind, pure, Except.pure, Except.ok.injEq,
        Prod.mk.injEq] at h
      exact ⟨decoded, by rw [← h.1], h.2.symm⟩

theorem and_255_mod (x : Nat) : (x &&& 255) % 256 = x &&& 255 :=
  Nat.mod_eq_of_lt (Nat.lt_succ_of_le Nat.and_le_right)

/-- The scan of a decoded buffer under a substitution colour. -/
theorem scanDecoded_substitute (rgb : Nat × Nat × Nat) (decoded : List Nat) (already : Bool) :
    (scanDecoded ⟨some rgb⟩ decoded already).1.length = decoded.length ∧
      (∀ idx, (scanDecoded ⟨some rgb⟩ decoded already).1[idx]? =
        if idx % 4 < 3 ∧ decoded[4 * (idx / 4) + 3]? = some 0 then
          some ((if idx % 4 = 0 then rgb.1 else if idx % 4 = 1 then rgb.2.1 else rgb.2.2) % 256)
        else decoded[idx]?) ∧
      ((scanDecoded ⟨some rgb⟩ decoded already).2 = true ↔ hasTransparentPixel decoded) := by
  obtain ⟨hl, hget, hflag⟩ := substituteLoop_spec rgb decoded.length 0 decoded false (by omega)
  simp only [Nat.mul_zero, Nat.zero_add, Nat.zero_le, true_and, Bool.false_eq_true,
    false_or] at hl hget hflag
  exact ⟨hl, hget, hflag⟩

/-- The scan of a decoded buffer under the default policy. -/
theorem scanDecoded_default (decoded : List Nat) (already : Bool) :
    (scanDecoded ⟨none⟩ decoded already).1 = decoded ∧
      ((scanDecoded ⟨none⟩ decoded already).2 = true ↔
        already = false ∧ hasTransparentPixel decoded) := by
  have hscan := transparencyScanLoop_spec decoded decoded.length 0 (by omega)
  simp only [Nat.mul_zero, Nat.zero_add, Nat.zero_le, true_and] at hscan
  cases already with
  | true => simp [scanDecoded]
  | false => simpa [scanDecoded, hasTransparentPixel] using hscan

/-- C15: for a codec constructed with a non-zero `transparentRGB` value `c`,
whatever `alreadyUsedTransparency` is, `_decodeFrame` returns a buffer of the
length of the decoded one in which every pixel with alpha 0 has R, G, B equal
to `(c>>16)&255`, `(c>>8)&255`, `c&255`, and in which every other byte, the
alpha bytes and the colour bytes of the pixels with another alpha, is the byte
that the reader decoded. -/
theorem decodeFrame_substitutes (c : Nat) (hc : c ≠ 0) (reader : GifReader)
    (frameIndex : Nat) (alreadyUsedTransparency : Bool) (info : FrameInfo)
    (decoded : List Nat) (hinfo : reader.frameInfo frameIndex = .ok info)
    (hblit : reader.decodeAndBlitFrameRGBA frameIndex
      (newBuffer (info.width * info.height * 4)) = .ok decoded) :
    ∃ frame uses,
      _decodeFrame (GifCodec.new (some c)) reader frameIndex alreadyUsedTransparency =
        .ok (frame, uses) ∧
      frame.data.length = decoded.length ∧
      (∀ k, decoded[4 * k + 3]? = some 0 →
        frame.data[4 * k]? = some (substitutionByte c 0) ∧
        frame.data[4 * k + 1]? = some (substitutionByte c 1) ∧
        frame.data[4 * k + 2]? = some (substitutionByte c 2) ∧
        frame.data[4 * k + 3]? = some 0) ∧
      (∀ idx, ¬ (idx % 4 < 3 ∧ decoded[4 * (idx / 4) + 3]? = some 0) →
        frame.data[idx]? = decoded[idx]?) := by
  have hcodec : GifCodec.new (some c) =
      ⟨some ((c >>> 16) &&& 0xff, (c >>> 8) &&& 0xff, c &&& 0xff)⟩ := by
    simp [GifCodec.new, hc]
  obtain ⟨hl, hget, -⟩ := scanDecoded_substitute
    ((c >>> 16) &&& 0xff, (c >>> 8) &&& 0xff, c &&& 0xff) decoded alreadyUsedTransparency
  refine ⟨_, _, decodeFrame_ok _ reader frameIndex alreadyUsedTransparency info decoded hinfo
    hblit, ?_, ?_, ?_⟩
  · rw [hcodec]; exact hl
  · intro k hk
    have hklen : 4 * k + 3 < decoded.length := (List.getElem?_eq_some.1 hk).1
    simp only [hcodec]
    refine ⟨?_, ?_, ?_, ?_⟩
    · rw [hget (4 * k)]
      have h1 : 4 * k % 4 = 0 := by omega
      have h2 : 4 * k / 4 = k := by omega
      simp [h1, h2, hk, substitutionByte, and_255_mod]
    · rw [hget (4 * k + 1)]
      have h1 : (4 * k + 1) % 4 = 1 := by omega
      have h2 : (4 * k + 1) / 4 = k := by omega
      simp [h1, h2, hk, substitutionByte, and_255_mod]
    · rw [hget (4 * k + 2)]
      have h1 : (4 * k + 2) % 4 = 2 := by omega
      have h2 : (4 * k + 2) / 4 = k := by omega
      simp [h1, h2, hk, substitutionByte, and_255_mod]
    · rw [hget (4 * k + 3)]
      have h1 : (4 * k + 3) % 4 = 3 := by omega
      simp [h1, hk]
  · intro idx hidx
    simp only [hcodec]
    rw [hget idx, if_neg hidx]

/-- Witness of C15: the colour `0x123456` and a decoded frame of an opaque
pixel and a pixel with alpha 0, after an earlier frame used transparency. -/
theorem decodeFrame_substitutes_witness :
    ∃ frame uses,
      _decodeFrame (GifCodec.new (some 0x123456))
        (sampleReader [[1, 2, 3, 255, 4, 5, 6, 0]]) 0 true = .ok (frame, uses) ∧
      frame.data = [1, 2, 3, 255, 0x12, 0x34, 0x56, 0] :=
  let ⟨frame, uses, h, _⟩ := decodeFrame_substitutes 0x123456 (by decide)
    (sampleReader [[1, 2, 3, 255, 4, 5, 6, 0]]) 0 true
    { x := 0, y := 0, width := 2, height := 1, disposal := 0, interlaced := false, delay := 0 }
    [1, 2, 3, 255, 4, 5, 6, 0] rfl rfl
  ⟨frame, uses, h, by
    have h' : _decodeFrame (GifCodec.new (some 0x123456))
        (sampleReader [[1, 2, 3, 255, 4, 5, 6, 0]]) 0 true =
        .ok ({ width := 2, height := 1, data := [1, 2, 3, 255, 0x12, 0x34, 0x56, 0],
               xOffset := 0, yOffset := 0, disposalMethod := 0, isInterlaced := false,
               delayHundreths := 0 }, true) := rfl
    rw [h'] at h
    cases h
    rfl⟩

/-- The flag that `_decodeFrame` returns implies a pixel with alpha 0 in the
frame, and is set for such a frame when no earlier frame used transparency. -/
theorem decodeFrame_flag (codec : GifCodec) (reader : GifReader) (frameIndex : Nat)
    (already : Bool) (frame : DecodedFrame) (uses : Bool)
    (h : _decodeFrame codec reader frameIndex already = .ok (frame, uses)) :
    (uses = true → hasTransparentPixel frame.data) ∧
      (already = false → hasTransparentPixel frame.data → uses = true) := by
  obtain ⟨decoded, hdata, huses⟩ := decodeFrame_inv codec reader frameIndex already frame uses h
  obtain ⟨rgb⟩ := codec
  cases rgb with
  | none =>
    obtain ⟨h1, h2⟩ := scanDecoded_default decoded already
    rw [hdata, huses, h1, h2]
    exact ⟨fun h => h.2, fun ha ht => ⟨ha, ht⟩⟩
  | some rgb =>
    obtain ⟨-, hget, hflag⟩ := scanDecoded_substitute rgb decoded already
    have halpha : hasTransparentPixel (scanDecoded ⟨some rgb⟩ decoded already).1 ↔
        hasTransparentPixel decoded := by
      unfold hasTransparentPixel
      refine exists_congr (fun k => ?_)
      rw [hget (4 * k + 3)]
      have h1 : (4 * k + 3) % 4 = 3 := by omega
      simp [h1]
    rw [hdata, huses, hflag, halpha]
    exact ⟨id, fun _ ht => ht⟩

theorem decodeFramesLoop_flag (codec : GifCodec) (reader : GifReader) :
    ∀ (n i : Nat) (acc : List DecodedFrame) (uses : Bool) (frames : List DecodedFrame)
      (uses' : Bool),
      decodeFramesLoop codec reader n i acc uses = .ok (frames, uses') →
      (uses = true ↔ ∃ frame ∈ acc, hasTransparentPixel frame.data) →
      (uses' = true ↔ ∃ frame ∈ frames, hasTransparentPixel frame.data) := by
  intro n
  induction n with
  | zero =>
    intro i acc uses frames uses' h hinv
    simp only [decodeFramesLoop, Except.ok.injEq, Prod.mk.injEq] at h
    rw [← h.1, ← h.2]
    exact hinv
  | succ n ih =>
    intro i acc uses frames uses' h hinv
    unfold decodeFramesLoop at h
    cases hframe : _decodeFrame codec reader i uses with
    | error e => simp [hframe, bind, Except.bind] at h
    | ok r =>
      obtain ⟨frame, fu⟩ := r
      simp only [hframe, bind, Except.bind] at h
      obtain ⟨hf1, hf2⟩ := decodeFrame_flag codec reader i uses frame fu hframe
      refine ih _ _ _ _ _ h ?_
      constructor
      · intro hu
        by_cases hfu : fu = true
        · exact ⟨frame, by simp, hf1 hfu⟩
        · simp only [hfu, Bool.false_eq_true, if_false] at hu
          obtain ⟨f, hf, ht⟩ := hinv.1 hu
          exact ⟨f, by simp [hf], ht⟩
      · rintro ⟨f, hf, ht⟩
        rcases List.mem_append.1 hf with hf | hf
        · have hu : uses = true := hinv.2 ⟨f, hf, ht⟩
          simp [hu]
        · have hfeq : f = frame := by simpa using hf
          subst hfeq
          by_cases hu : uses = true
          · simp [hu]
          · have hfu : fu = true := hf2 (by simpa using hu) ht
            simp [hfu]

/-- C16: for every GIF that `decodeGif` decodes, with or without a
substitution colour, the `usesTransparency` flag of the container is true if
and only if at least one of its decoded frames contains a pixel with alpha
0. -/
theorem decodeGif_usesTransparency (codec : GifCodec)
    (newReader : List Nat → Except Thrown GifReader) (buffer : List Nat) (gif : DecodedGif)
    (h : decodeGif codec newReader buffer = .ok gif) :
    gif.usesTransparency = true ↔ ∃ frame ∈ gif.frames, hasTransparentPixel frame.data := by
  unfold decodeGif at h
  cases hreader : newReader buffer with
  | error e => cases e <;> simp [hreader, bind, Except.bind] at h
  | ok reader =>
    cases hloop : decodeFramesLoop codec reader reader.numFrames 0 [] false with
    | error e => cases e <;> simp [hreader, hloop, bind, Except.bind] at h
    | ok r =>
      obtain ⟨frames, uses⟩ := r
      simp only [hreader, hloop, bind, Except.bind, pure, Except.pure, Except.ok.injEq] at h
      rw [← h]
      exact decodeFramesLoop_flag codec reader _ _ _ _ _ _ hloop (by simp)

/-- Witness of C16: three decoded frames of which the first two hold a pixel
with alpha 0, under the default policy. -/
theorem decodeGif_usesTransparency_witness :
    (true = true ↔ ∃ frame ∈ ([⟨2, 1, [1, 2, 3, 255, 4, 5, 6, 0], 0, 0, 0, false, 0⟩,
        ⟨1, 1, [7, 8, 9, 0], 0, 0, 0, false, 0⟩,
        ⟨1, 1, [1, 1, 1, 255], 0, 0, 0, false, 0⟩] : List DecodedFrame),
      hasTransparentPixel frame.data) :=
  decodeGif_usesTransparency (GifCodec.new none)
    (fun _ => .ok (sampleReader [[1, 2, 3, 255, 4, 5, 6, 0], [7, 8, 9, 0], [1, 1, 1, 255]]))
    []
    { buffer := [],
      frames := [⟨2, 1, [1, 2, 3, 255, 4, 5, 6, 0], 0, 0, 0, false, 0⟩,
        ⟨1, 1, [7, 8, 9, 0], 0, 0, 0, false, 0⟩,
        ⟨1, 1, [1, 1, 1, 255], 0, 0, 0, false, 0⟩],
      width := 1, height := 1, loops := 1, usesTransparency := true }
    rfl

/-- C17, as amended: under the default policy (no substitution colour),
`_decodeFrame` changes no byte of the decoded buffer, and the boolean that it
returns is true if and only if no earlier frame of the same decode used
transparency (`alreadyUsedTransparency` is false) and the frame's own decoded
buffer contains a pixel with alpha 0; when `alreadyUsedTransparency` is true
the buffer is not scanned and the boolean is false. -/
theorem decodeFrame_default_flag (codec : GifCodec) (hdefault : codec._transparentRGB = none)
    (reader : GifReader) (frameIndex : Nat) (alreadyUsedTransparency : Bool)
    (info : FrameInfo) (decoded : List Nat)
    (hinfo : reader.frameInfo frameIndex = .ok info)
    (hblit : reader.decodeAndBlitFrameRGBA frameIndex
      (newBuffer (info.width * info.height * 4)) = .ok decoded) :
    ∃ frame uses,
      _decodeFrame codec reader frameIndex alreadyUsedTransparency = .ok (frame, uses) ∧
      frame.data = decoded ∧
      (uses = true ↔ alreadyUsedTransparency = false ∧ hasTransparentPixel decoded) := by
  obtain ⟨rgb⟩ := codec
  simp only at hdefault
  subst hdefault
  obtain ⟨h1, h2⟩ := scanDecoded_default decoded alreadyUsedTransparency
  exact ⟨_, _, decodeFrame_ok _ reader frameIndex alreadyUsedTransparency info decoded hinfo
    hblit, h1, h2⟩

/-- Witness of C17 as amended: a frame with a pixel of alpha 0, decoded first
(the boolean is true). -/
theorem decodeFrame_default_flag_witness :
    ∃ frame uses,
      _decodeFrame (GifCodec.new none) (sampleReader [[7, 8, 9, 0]]) 0 false =
        .ok (frame, uses) ∧
      frame.data = [7, 8, 9, 0] ∧
      (uses = true ↔ false = false ∧ hasTransparentPixel [7, 8, 9, 0]) :=
  decodeFrame_default_flag (GifCodec.new none) rfl (sampleReader [[7, 8, 9, 0]]) 0 false
    { x := 0, y := 0, width := 1, height := 1, disposal := 0, interlaced := false, delay := 0 }
    [7, 8, 9, 0] rfl rfl

/-- C17 as stated fails at a frame with a pixel of alpha 0 that is decoded
after an earlier frame used transparency: under the default policy
`_decodeFrame` returns the boolean `false` for it. -/
theorem decodeFrame_default_skips_scan :
    hasTransparentPixel [7, 8, 9, 0] ∧
      _decodeFrame (GifCodec.new none) (sampleReader [[7, 8, 9, 0]]) 0 true =
        .ok ({ width := 1, height := 1, data := [7, 8, 9, 0], xOffset := 0, yOffset := 0,
               disposalMethod := 0, isInterlaced := false, delayHundreths := 0 }, false) :=
  ⟨⟨0, rfl⟩, rfl⟩

/-! ## The shared global palette -/

theorem powerOf2Loop_ge (colorCount : Nat) : ∀ (fuel : Nat) (start powerOf2 : Int),
    powerOf2Loop colorCount fuel start = some powerOf2 → (colorCount : Int) ≤ powerOf2 := by
  intro fuel
  induction fuel with
  | zero => intro start powerOf2 h; simp [powerOf2Loop] at h
  | succ fuel ih =>
    intro start powerOf2 h
    unfold powerOf2Loop at h
    by_cases hgt : (colorCount : Int) > start
    · simp only [hgt, if_true] at h
      exact ih _ _ h
    · simp only [hgt, if_false, Option.some.injEq] at h
      omega

/-- A call of `_extendPaletteToPowerOf2` on a palette that uses transparency
makes its colour list longer. -/
theorem extendPaletteToPowerOf2_grows (palette extended : Palette)
    (huses : palette.usesTransparency = true)
    (h : _extendPaletteToPowerOf2 palette = .ok extended) :
    palette.colors.length < extended.colors.length ∧
      extended.usesTransparency = true := by
  unfold _extendPaletteToPowerOf2 at h
  simp only [huses, if_true, List.length_append, List.length_singleton] at h
  cases hloop : powerOf2Loop (palette.colors.length + 1) 64 2 with
  | none => simp [hloop] at h
  | some powerOf2 =>
    simp only [hloop, Except.ok.injEq] at h
    have hge := powerOf2Loop_ge _ _ _ _ hloop
    rw [← h]
    simp only [List.length_append, List.length_take, List.length_replicate,
      List.length_singleton]
    push_cast at hge
    exact ⟨by omega, trivial⟩

/-- Writing a frame against a palette that uses transparency hands back a
palette with a longer colour list. -/
theorem writeFrame_grows_palette {W : Type} (host : Host W) (gifWriter gifWriter' : W)
    (frameIndex : Nat) (frame : GifFrame) (palette palette' : Palette) (isLocalPalette : Bool)
    (huses : palette.usesTransparency = true)
    (h : _writeFrame host gifWriter frameIndex frame palette isLocalPalette =
      .ok (gifWriter', palette')) :
    palette.colors.length < palette'.colors.length ∧ palette'.usesTransparency = true := by
  unfold _writeFrame at h
  by_cases hint : frame.isInterlaced = true
  · simp [hint, bind, Except.bind, throw, throwThe, MonadExceptOf.throw] at h
  · simp only [hint, Bool.false_eq_true, if_false, bind, Except.bind, pure, Except.pure] at h
    cases himg : _getIndexedImage frameIndex frame palette with
    | error e => simp [himg] at h
    | ok image =>
      simp only [himg] at h
      cases hext : _extendPaletteToPowerOf2 palette with
      | error e => simp [hext] at h
      | ok extended =>
        simp only [hext] at h
        cases hadd : host.addFrame gifWriter
            { x := frame.xOffset, y := frame.yOffset, width := frame.bitmap.width,
              height := frame.bitmap.height, indexedPixels := image.buffer,
              delay := frame.delayHundreths, disposal := frame.disposalMethod,
              transparent := image.transparentIndex,
              palette := if isLocalPalette = true then some extended.colors else none } with
        | error e => simp [hadd] at h
        | ok w =>
          simp only [hadd, Except.ok.injEq, Prod.mk.injEq] at h
          rw [← h.2]
          exact extendPaletteToPowerOf2_grows palette extended huses hext

set_option maxRecDepth 100000 in
/-- C21 at failing inputs.  Three equal frames (an opaque pixel of the colour
50 and a transparent pixel) are written against one global palette of the six
colours 10..60 with transparency, which the writer's constructor was handed
with 6 colours: the transparent indices passed to the writer are 6, 8 and 16,
not 6 each, and the colour 50 resolves to the index 4 for the first two frames
and to 0 for the third, because `_writeFrame` pads the shared colour list after
every frame and the binary search no longer finds 50 in the list of 16.  For
the spec's three black-dot frames the transparent indices are 1, 2 and 4, and
with nine such frames the ninth conversion throws. -/
theorem encodeGlobal_shared_palette_changes :
    sixColorPalette.colors.length = 6 ∧
      (encodeGlobalLoop (sampleHost sixColorFrames) sixColorFrames 0 [] sixColorPalette).map
          (fun calls => calls.map (fun call => (call.indexedPixels, call.transparent))) =
        .ok [([4, 0], some 6), ([4, 0], some 8), ([0, 0], some 16)] ∧
      _colorLookupBinary [10, 20, 30, 40, 50, 60] 50 = some 4 ∧
      _colorLookupBinary [10, 20, 30, 40, 50, 60, 0, 0, 0, 0, 0, 0, 0, 0, 0, 0] 50 = none ∧
      (encodeGlobalLoop (sampleHost blackDotFrames) blackDotFrames 0 []
          ⟨[0], true, 2⟩).map (fun calls => calls.map (fun call => call.transparent)) =
        .ok [some 1, some 2, some 4] ∧
      encodeGlobalLoop (sampleHost blackDotFrames) (List.replicate 9 (blackDotFrame 0)) 0 []
          ⟨[0], true, 2⟩ =
        .error (.gifError "Frame 8 already has 256 colorsand so can't use transparency") :=
  ⟨rfl, rfl, rfl, rfl, rfl, rfl⟩

/-! ## The bit width of an empty palette -/

theorem toInt32_neg_one : toInt32 (-1) / 2 = -1 := by
  unfold toInt32
  norm_num

/-- From `-1` the loop of `_getPixelBitWidth` never ends: no amount of fuel
gives a result. -/
theorem pixelBitWidthLoop_neg_one : ∀ (fuel w : Nat), pixelBitWidthLoop fuel (-1) w = none := by
  intro fuel
  induction fuel with
  | zero => intro w; rfl
  | succ fuel ih =>
    intro w
    unfold pixelBitWidthLoop
    rw [if_neg (by decide), toInt32_neg_one]
    exact ih _

/-- C22 at the failing input: for a palette of index size 0 (no colours, no
transparency), `--indexSize` gives `-1`, `-1 >> 1` is `-1`, and the loop
`while (indexSize)` of `_getPixelBitWidth` never ends, whatever the fuel; a
frame with no pixels brings such a palette to `_getSizeEstimateLocal`, and an
empty frame list brings it to `_getSizeEstimateGlobal` as the global palette, so
`_encodeGif` does not return either. -/
theorem getPixelBitWidth_zero_diverges :
    (∀ fuel w : Nat, pixelBitWidthLoop fuel (((0 : Nat) : Int) - 1) w = none) ∧
      _getPixelBitWidth ⟨[], false, 0⟩ = .error .diverges ∧
      collectLocalPalettes (some [emptyFrame]) [emptyFrame] = .ok (false, [⟨[], false, 0⟩]) ∧
      _getSizeEstimateLocal [⟨[], false, 0⟩] [emptyFrame] = .error .diverges ∧
      encodeGifChoice (some [emptyFrame]) [emptyFrame] (sampleSpec .speed 0) =
        .error .diverges ∧
      makeGlobalPalette false [] = ⟨[], false, 0⟩ ∧
      encodeGifChoice none [] (sampleSpec .both 0) = .error .diverges :=
  ⟨fun fuel w => pixelBitWidthLoop_neg_one fuel w, rfl, rfl, rfl, rfl, rfl, rfl⟩

end Gifwrap
